import Mathlib

/-!
# ucall: HTTP framing of JSON-RPC requests

A shallow embedding of `src/headers/parse/protocol/http.hpp` (`http_protocol_t`).

Conventions of the embedding.

* A byte is a natural number (its character code); a byte string is a `List Nat`.
* `size_t` values are natural numbers; where the C++ arithmetic can wrap, the
  result is reduced modulo `2 ^ 64` explicitly (`size_max`).
* A `std::string_view` whose `data()` pointer is never inspected by the code is
  represented by the bytes it designates.  `parsed.body` and the input span, whose
  `data()` pointers are subtracted from one another in `is_input_complete`, carry
  their address as well (`string_view`, `span_gt`).
* `phr_parse_request` (picohttpparser) is an external tokenizer: every function
  that calls it takes it as the parameter `phr`.

The second part embeds `src/helpers/parse.hpp` (`scratch_space_t`, `find_callback`).

* The parsed request is a tree of type `element`, the shape of a simdjson DOM value; the
  queries the code makes on it (`is_string`, `doc["key"]`, ...) follow simdjson.
* `tree.at_pointer` is taken as the parameter `at_pointer` by the two `point_to_param`
  overloads; `sj_at_pointer` is simdjson's resolution, used on concrete trees.
* The constants `json_pointer_capacity_k` and `max_integer_length_k` are declared in
  `shared.hpp`, which is not among the sources: the functions take them as parameters.
-/

namespace ucall

set_option autoImplicit false

/-! ## Byte strings -/

/-- The character codes of a string literal. -/
def ascii (s : String) : List Nat := s.toList.map Char.toNat

/-- The header terminator `"\r\n\r\n"`. -/
def crlf_crlf : List Nat := [13, 10, 13, 10]

/-- Number of values representable in `size_t` on the 64-bit targets of the library. -/
def size_max : Nat := 2 ^ 64

/-! ## Standard-library routines used by the code -/

/-- The test `'0' <= c && c <= '9'`. -/
def is_digit (c : Nat) : Bool := decide (48 ≤ c) && decide (c ≤ 57)

/-- Decimal rendering of `n`, most significant digit first, as `std::to_chars` produces it
for an unsigned value.  The first argument bounds the recursion; `decimal` supplies enough. -/
def decimal_fuel : Nat → Nat → List Nat
  | 0, n => [48 + n % 10]
  | fuel + 1, n => if n < 10 then [48 + n] else decimal_fuel fuel (n / 10) ++ [48 + n % 10]

/-- Decimal text of `n`. -/
def decimal (n : Nat) : List Nat := decimal_fuel n n

/-- Outcome of `std::to_chars(first, first + capacity, value)`: `some digits` when the
rendering fits the range (the digits are then written at `first`), `none` when it does not
(`ec == value_too_large`; libstdc++ and libc++ measure the width first and write nothing). -/
def to_chars (capacity value : Nat) : Option (List Nat) :=
  if (decimal value).length ≤ capacity then some (decimal value) else none

/-- Accumulation loop of `std::from_chars`: consumes leading decimal digits. -/
def from_chars_digits : List Nat → Nat → Nat
  | [], acc => acc
  | c :: cs, acc => if is_digit c then from_chars_digits cs (acc * 10 + (c - 48)) else acc

/-- Value left in `value` by `std::from_chars(first, last, value)` for a `size_t`:
when the range does not start with a digit (`invalid_argument`) or the number does not fit
64 bits (`result_out_of_range`), `value` is left unmodified. -/
def from_chars (s : List Nat) (value : Nat) : Nat :=
  match s with
  | [] => value
  | c :: _ =>
    if is_digit c then
      (if from_chars_digits s 0 < size_max then from_chars_digits s 0 else value)
    else value

/-- Test whether `needle` is an initial segment of `s`. -/
def starts_with : List Nat → List Nat → Bool
  | _, [] => true
  | [], _ :: _ => false
  | c :: s, d :: needle => decide (c = d) && starts_with s needle

/-- Result of `std::string_view::find(needle)`: offset of the first occurrence, `none` for `npos`. -/
def find (needle : List Nat) : List Nat → Option Nat
  | [] => if starts_with [] needle then some 0 else none
  | c :: s => if starts_with (c :: s) needle then some 0 else (find needle s).map (· + 1)

/-- In-place write of `bytes` at offset `off` of the span `out`; writes past the end of the
span land outside of it and are not part of the span. -/
def write_at : List Nat → Nat → List Nat → List Nat
  | [], _, _ => []
  | b :: out, 0, [] => b :: out
  | _ :: out, 0, d :: ds => d :: write_at out 0 ds
  | b :: out, off + 1, ds => b :: write_at out off ds

/-! ## Data model -/

/-- A `std::string_view` whose address matters: `data` is the address of its first byte and
`bytes` the bytes it designated when it was created (`size() = bytes.length`). -/
structure string_view where
  data : Nat
  bytes : List Nat
  deriving DecidableEq, Repr

/-- The `span_gt<char>` handed to `is_input_complete`: address and contents of the buffer. -/
structure span_gt where
  data : Nat
  bytes : List Nat
  deriving DecidableEq, Repr

/-- Modelled from the spec: `request_type_t` is declared in `shared.hpp`, which is not among
the sources; the spec lists GET, PUT, POST, DELETE or "none". -/
inductive request_type_t where
  | none_k
  | get_k
  | put_k
  | post_k
  | delete_k
  deriving DecidableEq, Repr

/-- Modelled from the spec: the `parsed_request_t` used by `http_protocol_t` is declared in
`shared.hpp`, which is not among the sources (the spec's ParsedEnvelope); the fields are those
`parse_headers` assigns.  A view is represented by the bytes it designated when it was
assigned: in the code a view kept from an earlier parse follows the buffer, so its size is
the one recorded here, but its bytes are those the buffer holds now. -/
structure parsed_request_t where
  path : List Nat
  type : request_type_t
  keep_alive : List Nat
  content_type : List Nat
  content_length : List Nat
  body : string_view
  deriving DecidableEq, Repr

/-- The struct `default_error_t`. -/
structure default_error_t where
  code : Int
  note : String
  deriving DecidableEq, Repr

/-- The struct `http_protocol_t` (its data members). -/
structure http_protocol_t where
  body_size : Nat
  content_length : Option Nat
  parsed : parsed_request_t
  deriving DecidableEq, Repr

/-- One `phr_header` filled in by the tokenizer. -/
structure phr_header where
  name : List Nat
  value : List Nat
  deriving DecidableEq, Repr

/-- Everything `phr_parse_request` hands back: its return code, the method and path tokens
and the first `count_headers` entries of `headers`. -/
structure phr_request where
  res : Int
  method : List Nat
  path : List Nat
  headers : List phr_header
  deriving DecidableEq, Repr

/-- Modelled from the spec: `exchange_pipes_t` is declared in `containers.hpp`, which is not
among the sources; the output sink is the sequence of bytes appended so far
(`output_span()`), and appending is accepted. -/
structure exchange_pipes_t where
  output : List Nat
  deriving DecidableEq, Repr

/-! ## The response template -/

/-- The constant `http_header_k`. -/
def http_header_k : List Nat :=
  ascii "HTTP/1.1 200 OK\r\nContent-Length:          \r\nContent-Type: application/json\r\n\r\n"

/-- The constant `http_header_size_k`. -/
def http_header_size_k : Nat := 78

/-- The constant `http_header_length_offset_k`. -/
def http_header_length_offset_k : Nat := 33

/-- The constant `http_header_length_capacity_k`. -/
def http_header_length_capacity_k : Nat := 9

/-! ## `http_protocol_t` -/

/-- Modelled from the spec: `exchange_pipes_t::append_reserved(data, length)` appends the
first `length` bytes at `data` to the output. -/
def append_reserved (pipes : exchange_pipes_t) (data : List Nat) (length : Nat) :
    exchange_pipes_t :=
  { pipes with output := pipes.output ++ data.take length }

/-- Modelled from the spec: `exchange_pipes_t::append_outputs(bytes)` appends raw bytes to the
output and reports acceptance. -/
def append_outputs (pipes : exchange_pipes_t) (bytes : List Nat) : Bool × exchange_pipes_t :=
  (true, { pipes with output := pipes.output ++ bytes })

/-- The member `http_protocol_t::prepare_response`. -/
def prepare_response (self : http_protocol_t) (pipes : exchange_pipes_t) :
    http_protocol_t × exchange_pipes_t :=
  let pipes := append_reserved pipes http_header_k http_header_size_k
  ({ self with body_size := pipes.output.length }, pipes)

/-- The member `http_protocol_t::append_response`. -/
def append_response (pipes : exchange_pipes_t) (response : List Nat) :
    Bool × exchange_pipes_t :=
  append_outputs pipes response

/-- The member `http_protocol_t::finalize_response`.  It returns `void`: the result holds
the updated object and pipes only.  The subtraction is a `size_t` one, modulo `2 ^ 64`.
When `to_chars` reports an error the branch is empty in the source
(`// TODO Return error`). -/
def finalize_response (self : http_protocol_t) (pipes : exchange_pipes_t) :
    http_protocol_t × exchange_pipes_t :=
  let output := pipes.output
  let body_size := (((output.length : Int) - (self.body_size : Int)) % (size_max : Int)).toNat
  match to_chars http_header_length_capacity_k body_size with
  | some digits =>
    ({ self with body_size := body_size },
     { pipes with output := write_at output http_header_length_offset_k digits })
  | none => ({ self with body_size := body_size }, pipes)

/-- The member `http_protocol_t::reset`. -/
def reset (self : http_protocol_t) : http_protocol_t :=
  { self with content_length := none }

/-- The member `http_protocol_t::get_content`. -/
def get_content (self : http_protocol_t) : string_view := self.parsed.body

/-- The method comparison chain of `parse_headers`: `none` when the token is none of the
four supported ones. -/
def request_type_of (type_str : List Nat) : Option request_type_t :=
  if type_str = ascii "GET" then some request_type_t.get_k
  else if type_str = ascii "PUT" then some request_type_t.put_k
  else if type_str = ascii "POST" then some request_type_t.post_k
  else if type_str = ascii "DELETE" then some request_type_t.delete_k
  else none

/-- Body of the header loop of `parse_headers`, for one header. -/
def scan_header (parsed : parsed_request_t) (h : phr_header) : parsed_request_t :=
  if h.name.length = 0 then parsed
  else if h.name = ascii "Keep-Alive" then { parsed with keep_alive := h.value }
  else if h.name = ascii "Content-Type" then { parsed with content_type := h.value }
  else if h.name = ascii "Content-Length" then { parsed with content_length := h.value }
  else parsed

/-- The member `http_protocol_t::parse_headers`; `phr` is `phr_parse_request`. -/
def parse_headers (phr : List Nat → phr_request) (self : http_protocol_t) (body : span_gt) :
    Option default_error_t × http_protocol_t :=
  let r := phr body.bytes
  if r.res = -2 then (some ⟨-206, "Partial HTTP request"⟩, self)
  else if r.res < 0 then (some ⟨-400, "Not a HTTP request"⟩, self)
  else
    let parsed := { self.parsed with path := r.path }
    match request_type_of r.method with
    | none => (some ⟨-405, "Unsupported request type"⟩, { self with parsed := parsed })
    | some t =>
      let parsed := { parsed with type := t }
      let parsed := r.headers.foldl scan_header parsed
      match find crlf_crlf body.bytes with
      | some pos =>
        (none, { self with parsed :=
          { parsed with body := ⟨body.data + (pos + 4), body.bytes.drop (pos + 4)⟩ } })
      | none => (none, { self with parsed := parsed })

/-- The member `http_protocol_t::is_input_complete`; `phr` is `phr_parse_request`.
The pointer difference `parsed.body.data() - input.data()` is added modulo `2 ^ 64`. -/
def is_input_complete (phr : List Nat → phr_request) (self : http_protocol_t)
    (input : span_gt) : Bool × http_protocol_t :=
  match self.content_length with
  | some content_length => (decide (content_length ≤ input.bytes.length), self)
  | none =>
    match parse_headers phr self input with
    | (some _, self) => (false, self)
    | (none, self) =>
      let bytes_expected := from_chars self.parsed.content_length 0
      let bytes_expected :=
        (((bytes_expected : Int) + ((self.parsed.body.data : Int) - (input.data : Int)))
          % (size_max : Int)).toNat
      (decide (bytes_expected ≤ input.bytes.length),
       { self with content_length := some bytes_expected })

/-- Successive calls of `is_input_complete` on the prefixes of `message` of the given lengths,
the buffer staying at address `base`; returns the answers in order. -/
def feed (phr : List Nat → phr_request) (base : Nat) (message : List Nat) :
    http_protocol_t → List Nat → List Bool
  | _, [] => []
  | self, k :: ks =>
    (is_input_complete phr self ⟨base, message.take k⟩).1 ::
      feed phr base message (is_input_complete phr self ⟨base, message.take k⟩).2 ks

/-- The needle occurs in `s` at offset `p` and at no smaller offset. -/
def first_occurrence (needle s : List Nat) (p : Nat) : Prop :=
  (s.drop p).take needle.length = needle ∧
    ∀ q, q < p → (s.drop q).take needle.length ≠ needle

instance (needle s : List Nat) (p : Nat) : Decidable (first_occurrence needle s p) := by
  unfold first_occurrence
  infer_instance

/-- Value of the last header of the list whose name is exactly `name`, if there is one. -/
def header_value (name : List Nat) : List phr_header → Option (List Nat)
  | [] => none
  | h :: hs =>
    match header_value name hs with
    | some v => some v
    | none => if h.name = name then some h.value else none

/-- The four method tokens `parse_headers` accepts. -/
def supported_methods : List (List Nat) :=
  [ascii "GET", ascii "PUT", ascii "POST", ascii "DELETE"]

/-! ## Concrete requests used to exercise the code -/

/-- A tokenizer given by a table: for the listed inputs it answers what `phr_parse_request`
answers for them, and "malformed" (`-1`) elsewhere. -/
def phr_table (table : List (List Nat × phr_request)) (bytes : List Nat) : phr_request :=
  match table.lookup bytes with
  | some r => r
  | none => ⟨-1, [], [], []⟩

/-- A value-initialised `http_protocol_t`. -/
def fresh : http_protocol_t :=
  ⟨0, none, ⟨[], request_type_t.none_k, [], [], [], ⟨0, []⟩⟩⟩

/-- A complete PATCH request with an empty body: 39 bytes, terminator at offset 35. -/
def patch_request : List Nat := ascii "PATCH / HTTP/1.1\r\nContent-Length: 0\r\n\r\n"

/-- What the tokenizer reports for `patch_request`: all 39 bytes consumed. -/
def patch_tokens : phr_request :=
  ⟨39, ascii "PATCH", ascii "/", [⟨ascii "Content-Length", ascii "0"⟩]⟩

/-- A complete POST request carrying the two-byte body `{}`: 40 bytes, terminator at
offset 34, body at offset 38. -/
def post_request : List Nat :=
  ascii "POST / HTTP/1.1\r\nContent-Length: 2\r\n\r\n\x7b\x7d"

/-- What the tokenizer reports for the prefixes of `post_request`: "needs more data" while
the header block is incomplete, then the tokens of the 38-byte header block. -/
def post_phr (bytes : List Nat) : phr_request :=
  if bytes.length < 38 then ⟨-2, [], [], []⟩
  else ⟨38, ascii "POST", ascii "/", [⟨ascii "Content-Length", ascii "2"⟩]⟩

/-- A complete HEAD request with an empty body: 38 bytes, terminator at offset 34. -/
def head_request : List Nat := ascii "HEAD / HTTP/1.1\r\nContent-Length: 0\r\n\r\n"

/-- What the tokenizer reports for the prefixes of `head_request`. -/
def head_phr (bytes : List Nat) : phr_request :=
  if bytes.length < 38 then ⟨-2, [], [], []⟩
  else ⟨38, ascii "HEAD", ascii "/", [⟨ascii "Content-Length", ascii "0"⟩]⟩

/-- A complete GET request without headers: 18 bytes, body start at offset 18. -/
def get_request : List Nat := ascii "GET / HTTP/1.1\r\n\r\n"

/-- A GET request whose lines end in bare line feeds: 34 bytes, no `"\r\n\r\n"` in it.
The tokenizer accepts a bare line feed as a line end. -/
def lf_request : List Nat := ascii "GET / HTTP/1.1\nContent-Length: 5\n\n"

/-- What the tokenizer reports for `post_request`, `get_request` and `lf_request`. -/
def demo_phr : List Nat → phr_request :=
  phr_table
    [(post_request, ⟨38, ascii "POST", ascii "/", [⟨ascii "Content-Length", ascii "2"⟩]⟩),
     (get_request, ⟨18, ascii "GET", ascii "/", []⟩),
     (lf_request, ⟨34, ascii "GET", ascii "/", [⟨ascii "Content-Length", ascii "5"⟩]⟩)]

/-- The pipes after `prepare_response` on an empty output sink and the append of `body`. -/
def framed (self : http_protocol_t) (body : List Nat) : exchange_pipes_t :=
  (append_response (prepare_response self ⟨[]⟩).2 body).2

/-- The outcome of `finalize_response` after `prepare_response` on an empty output sink and
the append of `body`. -/
def finalized (self : http_protocol_t) (body : List Nat) :
    http_protocol_t × exchange_pipes_t :=
  finalize_response (prepare_response self ⟨[]⟩).1 (framed self body)

/-- The reserved length field of an output: the 9 bytes at offsets 33 to 41. -/
def length_field (output : List Nat) : List Nat :=
  (output.drop http_header_length_offset_k).take http_header_length_capacity_k

/-- A complete OPTIONS request without headers: 22 bytes, terminator at offset 18. -/
def options_request : List Nat := ascii "OPTIONS / HTTP/1.1\r\n\r\n"

/-- What the tokenizer reports for `options_request`: all 22 bytes consumed. -/
def options_tokens : phr_request := ⟨22, ascii "OPTIONS", ascii "/", []⟩

/-! ## The request tree (simdjson DOM) -/

/-- A parsed JSON value, with the element types of the simdjson DOM: an integer literal is
`int64` when it fits the signed 64-bit range, `uint64` when it only fits the unsigned one;
`double` stands for every other number (its payload is the bit pattern). -/
inductive element where
  | null_value : element
  | bool : Bool → element
  | int64 : Int → element
  | uint64 : Nat → element
  | double : Nat → element
  | string : List Nat → element
  | array : List element → element
  | object : List (List Nat × element) → element

/-- The simdjson error codes that occur here. -/
inductive error_code where
  | SUCCESS
  | NO_SUCH_FIELD
  | INCORRECT_TYPE
  | INVALID_JSON_POINTER
  | INDEX_OUT_OF_BOUNDS
  | NUMBER_OUT_OF_RANGE
  deriving DecidableEq, Repr

/-- A `simdjson_result<element>`: a value or an error code. -/
inductive simdjson_result where
  | value : element → simdjson_result
  | failure : error_code → simdjson_result

/-- The largest `int64_t`. -/
def int64_max : Nat := 2 ^ 63 - 1

/-- The query `object::at_key`: value of the first field with the given key. -/
def at_key : List (List Nat × element) → List Nat → simdjson_result
  | [], _ => simdjson_result.failure error_code.NO_SUCH_FIELD
  | (k, v) :: fields, key => if k = key then simdjson_result.value v else at_key fields key

/-- The query `element::operator[](key)`. -/
def element.field (doc : element) (key : List Nat) : simdjson_result :=
  match doc with
  | element.object fields => at_key fields key
  | _ => simdjson_result.failure error_code.INCORRECT_TYPE

/-- The query `element::is_object`. -/
def element.is_object : element → Bool
  | element.object _ => true
  | _ => false

/-- The query `simdjson_result<element>::error`. -/
def simdjson_result.error : simdjson_result → error_code
  | simdjson_result.value _ => error_code.SUCCESS
  | simdjson_result.failure e => e

/-- The query `simdjson_result<element>::is_object`. -/
def simdjson_result.is_object : simdjson_result → Bool
  | simdjson_result.value (element.object _) => true
  | _ => false

/-- The query `simdjson_result<element>::is_array`. -/
def simdjson_result.is_array : simdjson_result → Bool
  | simdjson_result.value (element.array _) => true
  | _ => false

/-- The query `simdjson_result<element>::is_string`. -/
def simdjson_result.is_string : simdjson_result → Bool
  | simdjson_result.value (element.string _) => true
  | _ => false

/-- The query `simdjson_result<element>::is_double`: true for every number, since an integer
converts to a double. -/
def simdjson_result.is_double : simdjson_result → Bool
  | simdjson_result.value (element.double _) => true
  | simdjson_result.value (element.int64 _) => true
  | simdjson_result.value (element.uint64 _) => true
  | _ => false

/-- The query `simdjson_result<element>::is_int64`: an unsigned value qualifies when it does
not exceed the largest `int64_t`. -/
def simdjson_result.is_int64 : simdjson_result → Bool
  | simdjson_result.value (element.int64 _) => true
  | simdjson_result.value (element.uint64 u) => decide (u ≤ int64_max)
  | _ => false

/-- The query `simdjson_result<element>::is_uint64`: a signed value qualifies when it is not
negative. -/
def simdjson_result.is_uint64 : simdjson_result → Bool
  | simdjson_result.value (element.uint64 _) => true
  | simdjson_result.value (element.int64 i) => decide (0 ≤ i)
  | _ => false

/-- The expression `get_string().value_unsafe()`: the string, or the empty default of an
error result. -/
def simdjson_result.get_string : simdjson_result → List Nat
  | simdjson_result.value (element.string s) => s
  | _ => []

/-- The expression `get_int64().value_unsafe()`: the value when it is representable as an
`int64_t`; an error result (`NUMBER_OUT_OF_RANGE`, `INCORRECT_TYPE`) carries the
value-initialised `int64_t`, which is `0`. -/
def simdjson_result.get_int64 : simdjson_result → Int
  | simdjson_result.value (element.int64 i) => i
  | simdjson_result.value (element.uint64 u) => if u ≤ int64_max then (u : Int) else 0
  | _ => 0

/-- Replacement of the escapes `~0` and `~1` in a reference token of a JSON pointer; `none`
for any other use of `~`. -/
def unescape : List Nat → Option (List Nat)
  | [] => some []
  | 126 :: 48 :: rest => (unescape rest).map (fun r => 126 :: r)
  | 126 :: 49 :: rest => (unescape rest).map (fun r => 47 :: r)
  | 126 :: _ => none
  | c :: rest => (unescape rest).map (fun r => c :: r)

/-- Resolution of a JSON pointer as `simdjson::dom::element::at_pointer` performs it; the
first argument bounds the number of reference tokens. -/
def at_pointer_fuel : Nat → element → List Nat → simdjson_result
  | 0, _, _ => simdjson_result.failure error_code.INVALID_JSON_POINTER
  | fuel + 1, element.object fields, pointer =>
    match pointer with
    | [] => simdjson_result.value (element.object fields)
    | c :: rest =>
      if c ≠ 47 then simdjson_result.failure error_code.INVALID_JSON_POINTER
      else
        match unescape (rest.takeWhile (fun b => b ≠ 47)) with
        | none => simdjson_result.failure error_code.INVALID_JSON_POINTER
        | some key =>
          match at_key fields key with
          | simdjson_result.failure e => simdjson_result.failure e
          | simdjson_result.value child =>
            if rest.dropWhile (fun b => b ≠ 47) = [] then simdjson_result.value child
            else at_pointer_fuel fuel child (rest.dropWhile (fun b => b ≠ 47))
  | fuel + 1, element.array items, pointer =>
    match pointer with
    | [] => simdjson_result.value (element.array items)
    | c :: rest =>
      if c ≠ 47 then simdjson_result.failure error_code.INVALID_JSON_POINTER
      else if rest = [45] then simdjson_result.failure error_code.INDEX_OUT_OF_BOUNDS
      else if (rest.takeWhile (fun b => b ≠ 47)).any (fun b => !is_digit b) then
        simdjson_result.failure error_code.INCORRECT_TYPE
      else if 1 < (rest.takeWhile (fun b => b ≠ 47)).length ∧ rest.head? = some 48 then
        simdjson_result.failure error_code.INVALID_JSON_POINTER
      else if (rest.takeWhile (fun b => b ≠ 47)).length = 0 then
        simdjson_result.failure error_code.INVALID_JSON_POINTER
      else
        match items.get? (from_chars_digits (rest.takeWhile (fun b => b ≠ 47)) 0 % size_max) with
        | none => simdjson_result.failure error_code.INDEX_OUT_OF_BOUNDS
        | some child =>
          if rest.dropWhile (fun b => b ≠ 47) = [] then simdjson_result.value child
          else at_pointer_fuel fuel child (rest.dropWhile (fun b => b ≠ 47))
  | _ + 1, e, pointer =>
    if pointer = [] then simdjson_result.value e
    else simdjson_result.failure error_code.INVALID_JSON_POINTER

/-- The query `element::at_pointer` of simdjson. -/
def sj_at_pointer (tree : element) (pointer : List Nat) : simdjson_result :=
  at_pointer_fuel (pointer.length + 1) tree pointer

/-- Read an integer value off a result, for comparing resolutions on concrete trees. -/
def simdjson_result.as_int : simdjson_result → Option Int
  | simdjson_result.value (element.int64 i) => some i
  | simdjson_result.value (element.uint64 u) => some (u : Int)
  | _ => none

/-! ## `scratch_space_t` and `find_callback` -/

/-- The struct `scratch_space_t`.  `json_pointer` and `printed_int_id` hold the bytes of
memory from the start of the array of that name on (the array itself, of
`json_pointer_capacity_k` resp. `max_integer_length_k` bytes, comes first).  The string views
`dynamic_packet` and `dynamic_id` are the bytes they designate; the two parser handles are
left out. -/
structure scratch_space_t where
  json_pointer : List Nat
  printed_int_id : List Nat
  tree : element
  is_batch : Bool
  is_async : Bool
  is_http : Bool
  dynamic_packet : List Nat
  dynamic_id : List Nat

/-- Modelled from the spec: `named_callback_t` is declared in `shared.hpp`, which is not among
the sources; an entry of the callback table is a name and an opaque handle. -/
structure named_callback_t where
  name : List Nat
  callback : Nat
  deriving DecidableEq, Repr

/-- The return type `std::variant<ujrpc_callback_t, default_error_t>` of `find_callback`. -/
inductive callback_or_error where
  | callback : Nat → callback_or_error
  | error : default_error_t → callback_or_error
  deriving DecidableEq, Repr

/-- Outcome of `std::to_chars(first, first + capacity, value)` for an `int64_t`: the bytes
written at `first` and whether the call succeeded.  libstdc++ and libc++ write the minus
sign of a negative value as soon as the range is not empty, and only then measure the
digits: a failing call on a negative value has written the sign, any other failing call has
written nothing. -/
def to_chars_int (capacity : Nat) (value : Int) : List Nat × Bool :=
  if capacity = 0 then ([], false)
  else if value < 0 then
    (if (decimal (-value).toNat).length ≤ capacity - 1 then
      (45 :: decimal (-value).toNat, true)
    else ([45], false))
  else if (decimal value.toNat).length ≤ capacity then (decimal value.toNat, true)
  else ([], false)

/-- The local `needs_slash` of `point_to_param` (the name is not empty and its first byte is
not a slash), as the 0 or 1 it contributes to the arithmetic. -/
def needs_slash (name : List Nat) : Nat :=
  if name.length ≠ 0 ∧ name.head? ≠ some 47 then 1 else 0

/-- The overload `scratch_space_t::point_to_param(std::string_view name)`; `at_pointer` is
`tree.at_pointer`, `json_pointer_capacity_k` the constant of that name. -/
def point_to_param (at_pointer : element → List Nat → simdjson_result)
    (json_pointer_capacity_k : Nat) (self : scratch_space_t) (name : List Nat) :
    simdjson_result × scratch_space_t :=
  let final_size := name.length + 8 - needs_slash name
  if final_size > json_pointer_capacity_k then
    (simdjson_result.failure error_code.INVALID_JSON_POINTER, self)
  else
    let json_pointer :=
      write_at self.json_pointer 0 ((ascii "/params/").take (8 - needs_slash name))
    let json_pointer := write_at json_pointer (8 - needs_slash name) name
    (at_pointer self.tree (json_pointer.take final_size),
     { self with json_pointer := json_pointer })

/-- The overload `scratch_space_t::point_to_param(std::size_t position)`; `at_pointer` is
`tree.at_pointer`, `json_pointer_capacity_k` the constant of that name (at least 8, so that
the range handed to `to_chars` has `json_pointer_capacity_k - 8` bytes). -/
def point_to_param_position (at_pointer : element → List Nat → simdjson_result)
    (json_pointer_capacity_k : Nat) (self : scratch_space_t) (position : Nat) :
    simdjson_result × scratch_space_t :=
  let json_pointer := write_at self.json_pointer 0 (ascii "/params/")
  match to_chars (json_pointer_capacity_k - 8) position with
  | none =>
    (simdjson_result.failure error_code.INVALID_JSON_POINTER,
     { self with json_pointer := json_pointer })
  | some digits =>
    let json_pointer := write_at json_pointer 8 digits
    let final_size := 8 + digits.length
    (at_pointer self.tree (json_pointer.take final_size),
     { self with json_pointer := json_pointer })

/-- The `find_if` scan of `find_callback` over the table, in table order. -/
def find_if (callbacks : List named_callback_t) (method_name : List Nat) :
    Option named_callback_t :=
  callbacks.find? (fun callback => decide (callback.name = method_name))

/-- The id branch of `find_callback` (the `if (id.is_string()) ... else ...` statement):
whether it ran through (`false` when `to_chars` reports an error) and the scratch space it
leaves; on success the canonical id is stored in `dynamic_id`. -/
def store_id (max_integer_length_k : Nat) (scratch : scratch_space_t)
    (id : simdjson_result) : Bool × scratch_space_t :=
  if id.is_string then (true, { scratch with dynamic_id := id.get_string })
  else if id.is_int64 || id.is_uint64 then
    let res := to_chars_int max_integer_length_k id.get_int64
    let printed_int_id := write_at scratch.printed_int_id 0 res.1
    if res.2 then
      (true, { scratch with
        printed_int_id := printed_int_id,
        dynamic_id := printed_int_id.take res.1.length })
    else (false, { scratch with printed_int_id := printed_int_id })
  else (true, { scratch with dynamic_id := [] })

/-- The function `find_callback`; `max_integer_length_k` is the constant of that name. -/
def find_callback (max_integer_length_k : Nat) (callbacks : List named_callback_t)
    (scratch : scratch_space_t) : callback_or_error × scratch_space_t :=
  let doc := scratch.tree
  if !doc.is_object then
    (callback_or_error.error ⟨-32600, "The JSON sent is not a valid request object."⟩, scratch)
  else
    let version := doc.field (ascii "jsonrpc")
    if !version.is_string || version.get_string ≠ ascii "2.0" then
      (callback_or_error.error ⟨-32600, "The request doesn\x27t specify the 2.0 version."⟩,
       scratch)
    else
      let id := doc.field (ascii "id")
      let id_invalid :=
        (id.is_double && !id.is_int64 && !id.is_uint64) || id.is_object || id.is_array
      if id_invalid then
        (callback_or_error.error ⟨-32600, "The request must have integer or string id."⟩,
         scratch)
      else
        let method := doc.field (ascii "method")
        if !method.is_string then
          (callback_or_error.error ⟨-32600, "The method must be a string."⟩, scratch)
        else
          let params := doc.field (ascii "params")
          if !params.is_array && !params.is_object &&
              decide (params.error = error_code.SUCCESS) then
            (callback_or_error.error
              ⟨-32600, "Parameters can only be passed in arrays or objects."⟩, scratch)
          else
            match store_id max_integer_length_k scratch id with
            | (false, scratch) =>
              (callback_or_error.error ⟨-32600, "The request ID is invalid integer."⟩,
               scratch)
            | (true, scratch) =>
              match find_if callbacks method.get_string with
              | none => (callback_or_error.error ⟨-32601, "Method not found."⟩, scratch)
              | some callback => (callback_or_error.callback callback.callback, scratch)

/-- The error code of an outcome of `find_callback`, if it is an error. -/
def callback_or_error.code : callback_or_error → Option Int
  | callback_or_error.error e => some e.code
  | callback_or_error.callback _ => none

/-- The five envelope checks of `find_callback` all pass on the tree. -/
def envelope_ok (tree : element) : Bool :=
  tree.is_object &&
  ((tree.field (ascii "jsonrpc")).is_string &&
    decide ((tree.field (ascii "jsonrpc")).get_string = ascii "2.0")) &&
  !(((tree.field (ascii "id")).is_double && !(tree.field (ascii "id")).is_int64 &&
      !(tree.field (ascii "id")).is_uint64) ||
    (tree.field (ascii "id")).is_object || (tree.field (ascii "id")).is_array) &&
  (tree.field (ascii "method")).is_string &&
  !(!(tree.field (ascii "params")).is_array && !(tree.field (ascii "params")).is_object &&
    decide ((tree.field (ascii "params")).error = error_code.SUCCESS))

/-- The decimal text of an integer: a minus sign for a negative one, then its digits. -/
def int_text (value : Int) : List Nat :=
  if value < 0 then 45 :: decimal (-value).toNat else decimal value.toNat

/-- The canonical id of a request as the spec defines it: a string id itself, the decimal
text of an integer id, empty otherwise. -/
def canonical_id (tree : element) : List Nat :=
  match tree.field (ascii "id") with
  | simdjson_result.value (element.string s) => s
  | simdjson_result.value (element.int64 i) => int_text i
  | simdjson_result.value (element.uint64 u) => decimal u
  | _ => []

/-- The bytes the by-name overload of `point_to_param` composes for `name`: the first
`8 - needs_slash` bytes of `"/params/"`, then the name. -/
def composed_pointer (name : List Nat) : List Nat :=
  (ascii "/params/").take (8 - needs_slash name) ++ name

/-- A request object with the given `id` and `params` members (left out when `none`), the
version `"2.0"` and the method `"sum"`. -/
def request_of (id params : Option element) : element :=
  element.object
    ([(ascii "jsonrpc", element.string (ascii "2.0"))] ++
      (match id with
       | some v => [(ascii "id", v)]
       | none => []) ++
      [(ascii "method", element.string (ascii "sum"))] ++
      (match params with
       | some v => [(ascii "params", v)]
       | none => []))

/-- The parameters `{"x": 5}`. -/
def named_params : element := element.object [(ascii "x", element.int64 5)]

/-- The parameters `[10, 20, 30]`. -/
def positional_params : element :=
  element.array [element.int64 10, element.int64 20, element.int64 30]

/-- A scratch space with zeroed buffers of the given capacities, holding `tree`. -/
def scratch_of (json_pointer_capacity_k max_integer_length_k : Nat) (tree : element) :
    scratch_space_t :=
  ⟨List.replicate json_pointer_capacity_k 0, List.replicate max_integer_length_k 0, tree,
    false, false, false, [], []⟩

/-- A callback table: `"sum"` twice and `"Sum"` in between. -/
def demo_callbacks : List named_callback_t :=
  [⟨ascii "sum", 1⟩, ⟨ascii "Sum", 2⟩, ⟨ascii "sum", 3⟩]

/-! ## Lemmas on the decimal routines -/

theorem decimal_fuel_irrel (f : Nat) : ∀ (g n : Nat), n ≤ f → n ≤ g →
    decimal_fuel f n = decimal_fuel g n := by
  induction f with
  | zero =>
    intro g n hf _
    have hn : n = 0 := by omega
    subst hn
    cases g <;> simp [decimal_fuel]
  | succ f ih =>
    intro g n hf hg
    cases g with
    | zero =>
      have hn : n = 0 := by omega
      subst hn
      simp [decimal_fuel]
    | succ g =>
      by_cases h : n < 10
      · simp [decimal_fuel, h]
      · simp only [decimal_fuel, h, if_false]
        rw [ih g (n / 10) (by omega) (by omega)]

theorem decimal_unfold (n : Nat) :
    decimal n = if n < 10 then [48 + n] else decimal (n / 10) ++ [48 + n % 10] := by
  unfold decimal
  cases n with
  | zero => simp [decimal_fuel]
  | succ m =>
    by_cases h : m + 1 < 10
    · simp [decimal_fuel, h]
    · simp only [decimal_fuel, h, if_false]
      rw [decimal_fuel_irrel m ((m + 1) / 10) ((m + 1) / 10) (by omega) (Nat.le_refl _)]

theorem decimal_small (n : Nat) (h : n < 10) : decimal n = [48 + n] := by
  rw [decimal_unfold, if_pos h]

theorem decimal_big (n : Nat) (h : 10 ≤ n) :
    decimal n = decimal (n / 10) ++ [48 + n % 10] := by
  rw [decimal_unfold, if_neg (by omega)]

theorem decimal_ne_nil (n : Nat) : decimal n ≠ [] := by
  rw [decimal_unfold]
  split <;> simp

theorem decimal_all_digits (n : Nat) : ∀ c ∈ decimal n, is_digit c = true := by
  induction n using Nat.strong_induction_on with
  | _ n ih =>
    intro c hc
    by_cases h : n < 10
    · rw [decimal_small n h] at hc
      simp at hc
      subst hc
      simp [is_digit]
      omega
    · rw [decimal_big n (by omega)] at hc
      rcases List.mem_append.mp hc with hc | hc
      · exact ih (n / 10) (by omega) c hc
      · simp at hc
        subst hc
        simp [is_digit]
        omega

theorem decimal_length_le (k : Nat) : ∀ n, n < 10 ^ (k + 1) → (decimal n).length ≤ k + 1 := by
  induction k with
  | zero =>
    intro n hn
    rw [decimal_small n (by simpa using hn)]
    simp
  | succ k ih =>
    intro n hn
    by_cases h : n < 10
    · rw [decimal_small n h]
      simp
    · rw [decimal_big n (by omega)]
      have h1 : n / 10 < 10 ^ (k + 1) := by
        apply Nat.div_lt_of_lt_mul
        rw [pow_succ] at hn
        omega
      have := ih (n / 10) h1
      simp
      omega

theorem decimal_length_gt (k : Nat) : ∀ n, 10 ^ k ≤ n → k < (decimal n).length := by
  induction k with
  | zero =>
    intro n _
    exact List.length_pos.mpr (decimal_ne_nil n)
  | succ k ih =>
    intro n hn
    have h10 : 10 ≤ n := by
      have : 1 ≤ 10 ^ k := Nat.one_le_pow _ _ (by norm_num)
      rw [pow_succ] at hn
      omega
    rw [decimal_big n h10]
    have h1 : 10 ^ k ≤ n / 10 := by
      rw [Nat.le_div_iff_mul_le (by norm_num)]
      rw [pow_succ] at hn
      exact hn
    have := ih (n / 10) h1
    simp
    omega

theorem from_chars_digits_decimal (n : Nat) : ∀ (rest : List Nat) (acc : Nat),
    from_chars_digits (decimal n ++ rest) acc =
      from_chars_digits rest (acc * 10 ^ (decimal n).length + n) := by
  induction n using Nat.strong_induction_on with
  | _ n ih =>
    intro rest acc
    by_cases h : n < 10
    · rw [decimal_small n h]
      have hd : is_digit (48 + n) = true := by simp [is_digit]; omega
      simp [from_chars_digits, hd]
    · rw [decimal_big n (by omega), List.append_assoc, ih (n / 10) (by omega)]
      have hd : is_digit (48 + n % 10) = true := by simp [is_digit]; omega
      simp only [List.singleton_append, from_chars_digits, hd, if_true, List.length_append,
        List.length_singleton]
      congr 1
      have := Nat.div_add_mod n 10
      rw [pow_succ]
      have e : 48 + n % 10 - 48 = n % 10 := by omega
      rw [e]
      nlinarith [Nat.div_add_mod n 10]

theorem from_chars_digits_decimal_nil (n : Nat) : from_chars_digits (decimal n) 0 = n := by
  have := from_chars_digits_decimal n [] 0
  simpa [from_chars_digits] using this

theorem from_chars_decimal (n value : Nat) (h : n < size_max) :
    from_chars (decimal n) value = n := by
  have hne := decimal_ne_nil n
  have hall := decimal_all_digits n
  cases hd : decimal n with
  | nil => exact absurd hd hne
  | cons c cs =>
    have hc : is_digit c = true := hall c (by rw [hd]; simp)
    have hv : from_chars_digits (c :: cs) 0 = n := by
      rw [← hd]; exact from_chars_digits_decimal_nil n
    simp only [from_chars, hc, if_true, hv, h]

/-! ## Lemmas on searching and in-place writing -/

theorem starts_with_iff (s : List Nat) : ∀ needle : List Nat,
    starts_with s needle = true ↔ s.take needle.length = needle := by
  induction s with
  | nil =>
    intro needle
    cases needle <;> simp [starts_with]
  | cons c s ih =>
    intro needle
    cases needle with
    | nil => simp [starts_with]
    | cons d needle =>
      simp [starts_with, ih needle]

theorem find_of_first_occurrence (needle : List Nat) (s : List Nat) : ∀ p : Nat,
    first_occurrence needle s p → find needle s = some p := by
  induction s with
  | nil =>
    intro p hp
    obtain ⟨h1, h2⟩ := hp
    have hn : needle = [] := by simpa using h1.symm
    subst hn
    cases p with
    | zero => simp [find, starts_with]
    | succ p => exact absurd (by simp) (h2 0 (Nat.succ_pos p))
  | cons c s ih =>
    intro p hp
    obtain ⟨h1, h2⟩ := hp
    cases p with
    | zero =>
      have : starts_with (c :: s) needle = true := (starts_with_iff _ _).mpr (by simpa using h1)
      simp [find, this]
    | succ p =>
      have h0 : starts_with (c :: s) needle ≠ true := by
        intro h
        exact h2 0 (Nat.succ_pos p) (by simpa using (starts_with_iff _ _).mp h)
      have hrec : first_occurrence needle s p := by
        refine ⟨by simpa using h1, ?_⟩
        intro q hq
        have := h2 (q + 1) (by omega)
        simpa using this
      simp [find, h0, ih p hrec]

theorem first_occurrence_take (needle s : List Nat) (p k : Nat)
    (hp : first_occurrence needle s p) (hk : p + needle.length ≤ k) :
    first_occurrence needle (s.take k) p := by
  obtain ⟨h1, h2⟩ := hp
  have key : ∀ q, q ≤ p →
      ((s.take k).drop q).take needle.length = (s.drop q).take needle.length := by
    intro q hq
    rw [List.drop_take, List.take_take]
    congr 1
    omega
  refine ⟨by rw [key p (Nat.le_refl p)]; exact h1, ?_⟩
  intro q hq
  rw [key q (by omega)]
  exact h2 q hq

theorem first_occurrence_bound (needle s : List Nat) (p : Nat)
    (hp : first_occurrence needle s p) : p + needle.length ≤ s.length := by
  have h := congrArg List.length hp.1
  simp at h
  rcases Nat.eq_zero_or_pos p with h0 | h0
  · omega
  · rcases Nat.eq_zero_or_pos needle.length with hn | hn
    · have hnil : needle = [] := List.eq_nil_of_length_eq_zero hn
      exact absurd (by simp [hnil]) (hp.2 0 h0)
    · omega

theorem write_at_length (out : List Nat) : ∀ (off : Nat) (ds : List Nat),
    (write_at out off ds).length = out.length := by
  induction out with
  | nil => intro off ds; simp [write_at]
  | cons b out ih =>
    intro off ds
    cases off with
    | zero =>
      cases ds with
      | nil => simp [write_at]
      | cons d ds => simp [write_at, ih]
    | succ off => simp [write_at, ih]

theorem write_at_eq (out : List Nat) : ∀ (off : Nat) (ds : List Nat),
    off + ds.length ≤ out.length →
    write_at out off ds = out.take off ++ ds ++ out.drop (off + ds.length) := by
  induction out with
  | nil =>
    intro off ds h
    have hd : ds = [] := by
      apply List.eq_nil_of_length_eq_zero
      have h' : off + ds.length ≤ 0 := h
      omega
    subst hd
    simp [write_at]
  | cons b out ih =>
    intro off ds h
    cases off with
    | zero =>
      cases ds with
      | nil => simp [write_at]
      | cons d ds =>
        have := ih 0 ds (by simp at h ⊢; omega)
        simp [write_at, this]
    | succ off =>
      have := ih off ds (by simp at h ⊢; omega)
      simp only [write_at, this]
      have e : off + 1 + ds.length = (off + ds.length) + 1 := by omega
      simp [e]

/-! ## Lemmas on `parse_headers` -/

theorem scan_header_frame (parsed : parsed_request_t) (h : phr_header) :
    (scan_header parsed h).body = parsed.body ∧ (scan_header parsed h).type = parsed.type ∧
      (scan_header parsed h).path = parsed.path := by
  unfold scan_header
  split_ifs <;> simp

theorem scan_headers_frame (hs : List phr_header) : ∀ parsed : parsed_request_t,
    (hs.foldl scan_header parsed).body = parsed.body ∧
      (hs.foldl scan_header parsed).type = parsed.type ∧
      (hs.foldl scan_header parsed).path = parsed.path := by
  induction hs with
  | nil => intro parsed; simp
  | cons h hs ih =>
    intro parsed
    have h1 := ih (scan_header parsed h)
    have h2 := scan_header_frame parsed h
    simp only [List.foldl_cons]
    exact ⟨h1.1.trans h2.1, h1.2.1.trans h2.2.1, h1.2.2.trans h2.2.2⟩

theorem scan_header_content_length (parsed : parsed_request_t) (h : phr_header) :
    (scan_header parsed h).content_length =
      if h.name = ascii "Content-Length" then h.value else parsed.content_length := by
  unfold scan_header
  by_cases h3 : h.name = ascii "Content-Length"
  · have h0 : ¬ (ascii "Content-Length").length = 0 := by decide
    have h1 : ¬ ascii "Content-Length" = ascii "Keep-Alive" := by decide
    have h2 : ¬ ascii "Content-Length" = ascii "Content-Type" := by decide
    rw [h3]
    simp only [h0, h1, h2, if_false, if_true]
  · split_ifs <;> simp

theorem scan_headers_content_length (hs : List phr_header) : ∀ parsed : parsed_request_t,
    (hs.foldl scan_header parsed).content_length =
      (header_value (ascii "Content-Length") hs).getD parsed.content_length := by
  induction hs with
  | nil => intro parsed; simp [header_value]
  | cons h hs ih =>
    intro parsed
    simp only [List.foldl_cons, header_value]
    rw [ih (scan_header parsed h), scan_header_content_length]
    cases header_value (ascii "Content-Length") hs with
    | some v => simp
    | none =>
      by_cases h3 : h.name = ascii "Content-Length" <;> simp [h3]

theorem request_type_of_supported (m : List Nat) (h : m ∈ supported_methods) :
    ∃ t, request_type_of m = some t := by
  unfold request_type_of
  split_ifs
  · exact ⟨_, rfl⟩
  · exact ⟨_, rfl⟩
  · exact ⟨_, rfl⟩
  · exact ⟨_, rfl⟩
  · simp [supported_methods] at h
    tauto

theorem request_type_of_unsupported (m : List Nat) (h : m ∉ supported_methods) :
    request_type_of m = none := by
  unfold request_type_of
  simp [supported_methods] at h
  simp [h]

/-- What a successful `parse_headers` leaves behind, when the input holds a terminator. -/
theorem parse_headers_found (phr : List Nat → phr_request) (self : http_protocol_t)
    (body : span_gt) (p : Nat)
    (hres : 0 ≤ (phr body.bytes).res)
    (hm : (phr body.bytes).method ∈ supported_methods)
    (hp : first_occurrence crlf_crlf body.bytes p) :
    (parse_headers phr self body).1 = none ∧
      (parse_headers phr self body).2.content_length = self.content_length ∧
      (parse_headers phr self body).2.body_size = self.body_size ∧
      (parse_headers phr self body).2.parsed.body =
        ⟨body.data + (p + 4), body.bytes.drop (p + 4)⟩ ∧
      (parse_headers phr self body).2.parsed.content_length =
        (header_value (ascii "Content-Length") (phr body.bytes).headers).getD
          self.parsed.content_length := by
  obtain ⟨t, ht⟩ := request_type_of_supported _ hm
  have h1 : ¬ (phr body.bytes).res = -2 := by omega
  have h2 : ¬ (phr body.bytes).res < 0 := by omega
  have hf := find_of_first_occurrence crlf_crlf body.bytes p hp
  simp only [parse_headers, h1, h2, if_false, ht, hf]
  simp [scan_headers_content_length]

/-! ## `is_input_complete` -/

theorem wrap_offset (a d k : Nat) (h : a + k < size_max) :
    (((a : Int) + (((d + k : Nat) : Int) - (d : Int))) % (size_max : Int)).toNat = a + k := by
  have e : (a : Int) + (((d + k : Nat) : Int) - (d : Int)) = ((a + k : Nat) : Int) := by
    push_cast
    ring
  rw [e]
  norm_cast
  exact Nat.mod_eq_of_lt h

theorem is_input_complete_known (phr : List Nat → phr_request) (self : http_protocol_t)
    (input : span_gt) (c : Nat) (h : self.content_length = some c) :
    is_input_complete phr self input = (decide (c ≤ input.bytes.length), self) := by
  simp [is_input_complete, h]

theorem is_input_complete_failed (phr : List Nat → phr_request) (self : http_protocol_t)
    (input : span_gt) (h : self.content_length = none)
    (hres : (phr input.bytes).res < 0) :
    is_input_complete phr self input = (false, self) := by
  unfold is_input_complete
  rw [h]
  by_cases h2 : (phr input.bytes).res = -2
  · simp [parse_headers, h2]
  · simp [parse_headers, h2, hres]

theorem is_input_complete_parsed (phr : List Nat → phr_request) (self : http_protocol_t)
    (input : span_gt) (p N : Nat)
    (hnone : self.content_length = none)
    (hres : 0 ≤ (phr input.bytes).res)
    (hm : (phr input.bytes).method ∈ supported_methods)
    (hcl : header_value (ascii "Content-Length") (phr input.bytes).headers = some (decimal N))
    (hp : first_occurrence crlf_crlf input.bytes p)
    (hN : p + 4 + N < size_max) :
    is_input_complete phr self input =
      (decide (p + 4 + N ≤ input.bytes.length),
       { (parse_headers phr self input).2 with content_length := some (p + 4 + N) }) := by
  obtain ⟨h1, _, _, h4, h5⟩ := parse_headers_found phr self input p hres hm hp
  unfold is_input_complete
  rw [hnone]
  rcases hph : parse_headers phr self input with ⟨err, self1⟩
  rw [hph] at h1 h4 h5
  simp only at h1 h4 h5
  subst h1
  simp only
  rw [h5, hcl, Option.getD_some, from_chars_decimal N 0 (by omega), h4]
  have e := wrap_offset N input.data (p + 4) (by omega)
  simp only at e ⊢
  rw [e]
  have e2 : N + (p + 4) = p + 4 + N := by omega
  rw [e2]

theorem is_input_complete_unsupported (phr : List Nat → phr_request)
    (self : http_protocol_t) (input : span_gt)
    (hnone : self.content_length = none)
    (hres : 0 ≤ (phr input.bytes).res)
    (hm : (phr input.bytes).method ∉ supported_methods) :
    (parse_headers phr self input).1 = some ⟨-405, "Unsupported request type"⟩ ∧
      (is_input_complete phr self input).1 = false ∧
      (is_input_complete phr self input).2.content_length = none := by
  have h1 : ¬ (phr input.bytes).res = -2 := by omega
  have h2 : ¬ (phr input.bytes).res < 0 := by omega
  have hp : parse_headers phr self input =
      (some ⟨-405, "Unsupported request type"⟩,
       { self with parsed := { self.parsed with path := (phr input.bytes).path } }) := by
    simp [parse_headers, h1, h2, request_type_of_unsupported _ hm]
  refine ⟨by rw [hp], ?_, ?_⟩
  · unfold is_input_complete
    rw [hnone, hp]
  · unfold is_input_complete
    rw [hnone, hp]
    exact hnone

/-! ## Response framing -/

theorem body_size_difference (n m L : Nat) (h : n = m + L) (hL : L < size_max) :
    (((n : Int) - (m : Int)) % (size_max : Int)).toNat = L := by
  have e : (n : Int) - (m : Int) = (L : Int) := by
    rw [h]
    push_cast
    ring
  rw [e]
  norm_cast
  exact Nat.mod_eq_of_lt hL

theorem finalize_response_fits (self : http_protocol_t) (pipes : exchange_pipes_t) (L : Nat)
    (hsz : pipes.output.length = self.body_size + L) (hL : L < 10 ^ 9)
    (hlen : 42 ≤ pipes.output.length) :
    finalize_response self pipes =
      ({ self with body_size := L },
       { pipes with output := pipes.output.take 33 ++ decimal L ++
           pipes.output.drop (33 + (decimal L).length) }) := by
  have hd : (decimal L).length ≤ 9 := decimal_length_le 8 L hL
  have hb := body_size_difference _ _ L hsz (by unfold size_max; omega)
  unfold finalize_response
  simp only [hb, to_chars, http_header_length_capacity_k, hd, if_true,
    http_header_length_offset_k]
  rw [write_at_eq _ _ _ (by omega)]

theorem finalize_response_too_wide (self : http_protocol_t) (pipes : exchange_pipes_t)
    (L : Nat) (hsz : pipes.output.length = self.body_size + L) (h1 : 10 ^ 9 ≤ L)
    (h2 : L < size_max) :
    finalize_response self pipes = ({ self with body_size := L }, pipes) := by
  have hd : ¬ (decimal L).length ≤ 9 := by
    have := decimal_length_gt 9 L h1
    omega
  have hb := body_size_difference _ _ L hsz h2
  unfold finalize_response
  simp only [hb, to_chars, http_header_length_capacity_k, hd, if_false]

theorem http_header_k_layout :
    http_header_k = http_header_k.take 33 ++ (List.replicate 9 32 ++ http_header_k.drop 42) := by
  decide

theorem prepared_output (self : http_protocol_t) (body : List Nat) :
    (prepare_response self ⟨[]⟩).1.body_size = 78 ∧
      (append_response (prepare_response self ⟨[]⟩).2 body).2.output = http_header_k ++ body ∧
      (append_response (prepare_response self ⟨[]⟩).2 body).1 = true := by
  have h : http_header_k.take 78 = http_header_k := by decide
  have h2 : http_header_k.length = 78 := by decide
  simp [prepare_response, append_response, append_reserved, append_outputs,
    http_header_size_k, h, h2]

theorem finalized_output (self : http_protocol_t) (body : List Nat)
    (hL : body.length < 10 ^ 9) :
    (finalize_response (prepare_response self ⟨[]⟩).1
        (append_response (prepare_response self ⟨[]⟩).2 body).2).2.output =
      http_header_k.take 33 ++
        ((decimal body.length ++ List.replicate (9 - (decimal body.length).length) 32) ++
          (http_header_k.drop 42 ++ body)) := by
  obtain ⟨h1, h2, _⟩ := prepared_output self body
  have hk : http_header_k.length = 78 := by decide
  have hd : (decimal body.length).length ≤ 9 := decimal_length_le 8 _ hL
  rw [finalize_response_fits _ _ body.length (by rw [h2, h1]; simp [hk]) hL
    (by rw [h2]; simp [hk]; omega)]
  simp only [h2]
  have h33 : (http_header_k.take 33).length = 33 := by decide
  have e1 : (http_header_k ++ body).take 33 = http_header_k.take 33 := by
    rw [List.take_append_of_le_length (by omega)]
  have key : ∀ (front back : List Nat) (d : Nat), front.length = 33 → d ≤ 9 →
      (front ++ (List.replicate 9 32 ++ back) ++ body).drop (33 + d) =
        List.replicate (9 - d) 32 ++ (back ++ body) := by
    intro front back d hf hd9
    rw [List.append_assoc, ← List.drop_drop, List.drop_left' hf, List.append_assoc,
      List.drop_append_of_le_length (by simp; omega), List.drop_replicate]
  have e2 : (http_header_k ++ body).drop (33 + (decimal body.length).length) =
      List.replicate (9 - (decimal body.length).length) 32 ++
        (http_header_k.drop 42 ++ body) := by
    conv_lhs => rw [http_header_k_layout]
    exact key _ _ _ h33 hd
  rw [e1, e2]
  simp [List.append_assoc]

/-! ## Completeness of the input (C1 to C4) -/

/-- C1, as stated, fails: the 39-byte request `PATCH / HTTP/1.1` with `Content-Length: 0`
tokenizes successfully, its terminator ends at offset 39 and it declares 0 bytes, so that
`H + N = 39` bytes are buffered; yet `is_input_complete` answers false and caches nothing,
because `parse_headers` refuses the method with `-405`. -/
theorem is_input_complete_rejects_patch :
    fresh.content_length = none ∧
    0 ≤ (phr_table [(patch_request, patch_tokens)] patch_request).res ∧
    first_occurrence crlf_crlf patch_request 35 ∧
    header_value (ascii "Content-Length")
      (phr_table [(patch_request, patch_tokens)] patch_request).headers = some (decimal 0) ∧
    35 + 4 + 0 ≤ patch_request.length ∧
    (is_input_complete (phr_table [(patch_request, patch_tokens)]) fresh
      ⟨4096, patch_request⟩).1 = false ∧
    (is_input_complete (phr_table [(patch_request, patch_tokens)]) fresh
      ⟨4096, patch_request⟩).2.content_length = none := by
  decide

/-- C1, amended: let the content length be not yet known, the headers tokenize successfully
and the first `"\r\n\r\n"` start at offset `p` (body start `H = p + 4`).  If the method token
is one of GET, PUT, POST, DELETE, the Content-Length header value is the decimal text of `N`
and `H + N` fits a `size_t`, the call caches `content_length = H + N` and returns true
exactly when the buffer holds at least `H + N` bytes.  With any other method token
`parse_headers` fails with `-405`, and the call returns false and caches nothing. -/
theorem is_input_complete_threshold (phr : List Nat → phr_request) (self : http_protocol_t)
    (input : span_gt) (p N : Nat)
    (hnone : self.content_length = none)
    (hres : 0 ≤ (phr input.bytes).res)
    (hp : first_occurrence crlf_crlf input.bytes p) :
    ((phr input.bytes).method ∈ supported_methods →
      header_value (ascii "Content-Length") (phr input.bytes).headers = some (decimal N) →
      p + 4 + N < size_max →
      (is_input_complete phr self input).2.content_length = some (p + 4 + N) ∧
        ((is_input_complete phr self input).1 = true ↔ p + 4 + N ≤ input.bytes.length)) ∧
    ((phr input.bytes).method ∉ supported_methods →
      (parse_headers phr self input).1 = some ⟨-405, "Unsupported request type"⟩ ∧
        (is_input_complete phr self input).1 = false ∧
        (is_input_complete phr self input).2.content_length = none) := by
  constructor
  · intro hm hcl hN
    rw [is_input_complete_parsed phr self input p N hnone hres hm hcl hp hN]
    simp
  · intro hm
    exact is_input_complete_unsupported phr self input hnone hres hm

/-- C1, amended, on a POST request with 38 header bytes and a declared length of 2, and on
the PATCH request. -/
theorem is_input_complete_threshold_witness :
    ((is_input_complete post_phr fresh ⟨4096, post_request⟩).2.content_length =
        some (34 + 4 + 2) ∧
      ((is_input_complete post_phr fresh ⟨4096, post_request⟩).1 = true ↔
        34 + 4 + 2 ≤ (span_gt.mk 4096 post_request).bytes.length)) ∧
    ((parse_headers (phr_table [(patch_request, patch_tokens)]) fresh
        ⟨4096, patch_request⟩).1 = some ⟨-405, "Unsupported request type"⟩ ∧
      (is_input_complete (phr_table [(patch_request, patch_tokens)]) fresh
        ⟨4096, patch_request⟩).1 = false ∧
      (is_input_complete (phr_table [(patch_request, patch_tokens)]) fresh
        ⟨4096, patch_request⟩).2.content_length = none) :=
  ⟨(is_input_complete_threshold post_phr fresh ⟨4096, post_request⟩ 34 2 (by decide)
      (by decide) (by decide)).1 (by decide) (by decide) (by decide),
    (is_input_complete_threshold (phr_table [(patch_request, patch_tokens)]) fresh
      ⟨4096, patch_request⟩ 35 0 (by decide) (by decide) (by decide)).2 (by decide)⟩

/-- C2, as stated, fails: the complete 38-byte request `HEAD / HTTP/1.1` with
`Content-Length: 0` (`H = 38`, `N = 0`) fed as the prefixes of 10 and 38 bytes from a fresh
state is answered false both times, although the second prefix has `H + N` bytes. -/
theorem feed_rejects_head :
    first_occurrence crlf_crlf head_request 34 ∧
    34 + 4 + 0 ≤ head_request.length ∧
    header_value (ascii "Content-Length") (head_phr head_request).headers =
      some (decimal 0) ∧
    feed head_phr 4096 head_request fresh [10, 38] = [false, false] := by
  decide

/-- C2, amended: let `M` be a complete request that fits the address space, whose terminator
starts at `p` (`H = p + 4`), on whose prefixes shorter than `H` the tokenizer fails and on
whose longer prefixes it succeeds with one of the methods GET, PUT, POST, DELETE and the
declared length `N`, `|M| >= H + N`.  Fed from a state without content length, any sequence
of prefixes of `M` (strictly growing or not) is answered false on the prefixes shorter than
`H + N` and true on the others; and a call made once the content length is set changes
nothing in the state. -/
theorem feed_chunking_invariance (phr : List Nat → phr_request) (base : Nat)
    (M : List Nat) (p N : Nat) (self : http_protocol_t) (ks : List Nat)
    (hnone : self.content_length = none)
    (hp : first_occurrence crlf_crlf M p)
    (hlen : p + 4 + N ≤ M.length) (hM : M.length < size_max)
    (hshort : ∀ k, k < p + 4 → (phr (M.take k)).res < 0)
    (hfull : ∀ k, p + 4 ≤ k → 0 ≤ (phr (M.take k)).res ∧
      (phr (M.take k)).method ∈ supported_methods ∧
      header_value (ascii "Content-Length") (phr (M.take k)).headers = some (decimal N)) :
    feed phr base M self ks = ks.map (fun k => decide (p + 4 + N ≤ k)) ∧
      ∀ (st : http_protocol_t) (c : Nat) (input : span_gt), st.content_length = some c →
        (is_input_complete phr st input).2 = st := by
  refine ⟨?_, fun st c input h => by rw [is_input_complete_known phr st input c h]⟩
  have gen : ∀ (ks : List Nat) (st : http_protocol_t),
      (st.content_length = none ∨ st.content_length = some (p + 4 + N)) →
      feed phr base M st ks = ks.map (fun k => decide (p + 4 + N ≤ k)) := by
    intro ks
    induction ks with
    | nil => intro st _; simp [feed]
    | cons k ks ih =>
      intro st hst
      have hmin : decide (p + 4 + N ≤ (M.take k).length) = decide (p + 4 + N ≤ k) := by
        have : (p + 4 + N ≤ (M.take k).length) ↔ (p + 4 + N ≤ k) := by
          rw [List.length_take]
          omega
        exact decide_eq_decide.mpr this
      rcases hst with hst | hst
      · by_cases hk : k < p + 4
        · have e := is_input_complete_failed phr st ⟨base, M.take k⟩ hst (hshort k hk)
          simp only [feed, e, List.map_cons]
          rw [ih st (Or.inl hst)]
          have : ¬ (p + 4 + N ≤ k) := by omega
          simp [this]
        · obtain ⟨h1, h2, h3⟩ := hfull k (by omega)
          have hocc : first_occurrence crlf_crlf (M.take k) p :=
            first_occurrence_take crlf_crlf M p k hp (by simp [crlf_crlf]; omega)
          have e := is_input_complete_parsed phr st ⟨base, M.take k⟩ p N hst h1 h2 h3 hocc
            (by omega)
          simp only [feed, e, List.map_cons]
          rw [ih _ (Or.inr rfl), hmin]
      · have e := is_input_complete_known phr st ⟨base, M.take k⟩ _ hst
        simp only [feed, e, List.map_cons]
        rw [ih st (Or.inr hst), hmin]
  exact gen ks self (Or.inl hnone)

/-- C2, amended, on the POST request of 40 bytes fed in four pieces. -/
theorem feed_chunking_invariance_witness :
    feed post_phr 4096 post_request fresh [7, 38, 39, 40] =
        [7, 38, 39, 40].map (fun k => decide (34 + 4 + 2 ≤ k)) ∧
      ∀ (st : http_protocol_t) (c : Nat) (input : span_gt), st.content_length = some c →
        (is_input_complete post_phr st input).2 = st :=
  feed_chunking_invariance post_phr 4096 post_request 34 2 fresh [7, 38, 39, 40]
    (by decide) (by decide) (by decide) (by decide)
    (fun k hk => by
      have h : (post_request.take k).length < 38 := by
        rw [List.length_take]
        omega
      simp only [post_phr, h, if_true]
      decide)
    (fun k hk => by
      have h : ¬ (post_request.take k).length < 38 := by
        rw [List.length_take]
        have : post_request.length = 40 := by decide
        omega
      simp only [post_phr, h, if_false]
      decide)

/-- C3, as stated, fails: for the 40-byte POST request with body `{}` (`H = 38`, `N = 2`),
after the call on the 38 header bytes (false) and the call on the whole message (true),
`get_content()` is the empty view recorded by the first call, not the two body bytes: the
second call finds the content length known and does not parse again. -/
theorem get_content_empty_after_chunks :
    (is_input_complete post_phr fresh ⟨4096, post_request.take 38⟩).1 = false ∧
    (is_input_complete post_phr
      (is_input_complete post_phr fresh ⟨4096, post_request.take 38⟩).2
      ⟨4096, post_request⟩).1 = true ∧
    (post_request.drop 38).take 2 = ascii "\x7b\x7d" ∧
    get_content (is_input_complete post_phr
      (is_input_complete post_phr fresh ⟨4096, post_request.take 38⟩).2
      ⟨4096, post_request⟩).2 = ⟨4096 + 38, []⟩ := by
  decide

/-- C3, amended: for a complete POST request `M` with body start `H = p + 4` and declared
length `N > 0`, from a state without content length, the call on the headers-only prefix
returns false and the call on the whole of `M` returns true; `get_content()` is then the
empty view at offset `H` that the first call recorded.  Once `parse_headers` has run on the
whole of `M`, `get_content()` is the view of the bytes of `M` from offset `H` on, which are
exactly the `N` body bytes when `|M| = H + N`. -/
theorem get_content_after_chunks (phr : List Nat → phr_request) (base : Nat)
    (M : List Nat) (p N : Nat) (self : http_protocol_t)
    (hnone : self.content_length = none)
    (hp : first_occurrence crlf_crlf M p)
    (hN : 0 < N) (hlen : p + 4 + N ≤ M.length) (hM : M.length < size_max)
    (hhead : 0 ≤ (phr (M.take (p + 4))).res ∧ (phr (M.take (p + 4))).method = ascii "POST" ∧
      header_value (ascii "Content-Length") (phr (M.take (p + 4))).headers =
        some (decimal N))
    (hfull : 0 ≤ (phr M).res ∧ (phr M).method = ascii "POST") :
    (is_input_complete phr self ⟨base, M.take (p + 4)⟩).1 = false ∧
    (is_input_complete phr (is_input_complete phr self ⟨base, M.take (p + 4)⟩).2
      ⟨base, M⟩).1 = true ∧
    get_content (is_input_complete phr (is_input_complete phr self ⟨base, M.take (p + 4)⟩).2
      ⟨base, M⟩).2 = ⟨base + (p + 4), []⟩ ∧
    get_content (parse_headers phr
      (is_input_complete phr (is_input_complete phr self ⟨base, M.take (p + 4)⟩).2
        ⟨base, M⟩).2 ⟨base, M⟩).2 = ⟨base + (p + 4), M.drop (p + 4)⟩ ∧
    (M.length = p + 4 + N → M.drop (p + 4) = (M.drop (p + 4)).take N) := by
  obtain ⟨h1, h2, h3⟩ := hhead
  have hpost : ascii "POST" ∈ supported_methods := by decide
  have hocc : first_occurrence crlf_crlf (M.take (p + 4)) p :=
    first_occurrence_take crlf_crlf M p (p + 4) hp (by simp [crlf_crlf])
  have e1 := is_input_complete_parsed phr self ⟨base, M.take (p + 4)⟩ p N hnone h1
    (by rw [h2]; exact hpost) h3 hocc (by omega)
  have hbody := (parse_headers_found phr self ⟨base, M.take (p + 4)⟩ p h1
    (by rw [h2]; exact hpost) hocc).2.2.2.1
  have hshort : ¬ (p + 4 + N ≤ (M.take (p + 4)).length) := by
    rw [List.length_take]
    omega
  rw [e1]
  have e2 := is_input_complete_known phr
    { (parse_headers phr self ⟨base, M.take (p + 4)⟩).2 with
      content_length := some (p + 4 + N) } ⟨base, M⟩ (p + 4 + N) rfl
  simp only at e2 ⊢
  rw [e2]
  have hfound := parse_headers_found phr
    { (parse_headers phr self ⟨base, M.take (p + 4)⟩).2 with
      content_length := some (p + 4 + N) } ⟨base, M⟩ p hfull.1
    (by rw [hfull.2]; exact hpost) hp
  refine ⟨by simpa using hshort, by simpa using hlen, ?_, ?_, ?_⟩
  · simp only [get_content, hbody]
    simp
  · simp only [get_content]
    exact hfound.2.2.2.1
  · intro hlenM
    rw [List.take_of_length_le]
    rw [List.length_drop]
    omega

/-- C3, amended, on the 40-byte POST request with body `{}`. -/
theorem get_content_after_chunks_witness :
    get_content (parse_headers post_phr
      (is_input_complete post_phr
        (is_input_complete post_phr fresh ⟨4096, post_request.take (34 + 4)⟩).2
        ⟨4096, post_request⟩).2 ⟨4096, post_request⟩).2 =
      ⟨4096 + (34 + 4), post_request.drop (34 + 4)⟩ :=
  (get_content_after_chunks post_phr 4096 post_request 34 2 fresh (by decide) (by decide)
    (by decide) (by decide) (by decide) (by decide) (by decide)).2.2.2.1

/-- C4, evaluated on the code: `get_request` (18 bytes) is received and the state is reset;
then the 34 bytes of `lf_request`, which contain no `"\r\n\r\n"` but which the tokenizer
accepts, arrive in the same buffer.  `parse_headers` leaves `parsed.body` where the earlier
request put it (offset 18), the expected length becomes `5 + 18 = 23`, and
`is_input_complete` answers true. -/
theorem is_input_complete_without_terminator :
    (∀ q, q < 35 → (lf_request.drop q).take 4 ≠ crlf_crlf) ∧
    find crlf_crlf lf_request = none ∧
    (reset (is_input_complete demo_phr fresh ⟨4096, get_request⟩).2).content_length = none ∧
    (is_input_complete demo_phr
      (reset (is_input_complete demo_phr fresh ⟨4096, get_request⟩).2)
      ⟨4096, lf_request⟩).1 = true ∧
    (is_input_complete demo_phr
      (reset (is_input_complete demo_phr fresh ⟨4096, get_request⟩).2)
      ⟨4096, lf_request⟩).2.content_length = some 23 := by
  decide

/-! ## `parse_headers` (C5 to C7) -/

/-- C5: `parse_headers` maps the tokenizer code `-2` to `{-206, "Partial HTTP request"}`, any
other negative code to `{-400, "Not a HTTP request"}`, a success with a method token other
than GET, PUT, POST, DELETE to `{-405, "Unsupported request type"}`, and otherwise returns no
error with `parsed.type` the enum value of the method token; no other error code occurs. -/
theorem parse_headers_result_mapping (phr : List Nat → phr_request)
    (self : http_protocol_t) (body : span_gt) :
    ((phr body.bytes).res = -2 →
      (parse_headers phr self body).1 = some ⟨-206, "Partial HTTP request"⟩) ∧
    ((phr body.bytes).res < 0 → (phr body.bytes).res ≠ -2 →
      (parse_headers phr self body).1 = some ⟨-400, "Not a HTTP request"⟩) ∧
    (0 ≤ (phr body.bytes).res → (phr body.bytes).method ∉ supported_methods →
      (parse_headers phr self body).1 = some ⟨-405, "Unsupported request type"⟩) ∧
    (0 ≤ (phr body.bytes).res → (phr body.bytes).method = ascii "GET" →
      (parse_headers phr self body).1 = none ∧
        (parse_headers phr self body).2.parsed.type = request_type_t.get_k) ∧
    (0 ≤ (phr body.bytes).res → (phr body.bytes).method = ascii "PUT" →
      (parse_headers phr self body).1 = none ∧
        (parse_headers phr self body).2.parsed.type = request_type_t.put_k) ∧
    (0 ≤ (phr body.bytes).res → (phr body.bytes).method = ascii "POST" →
      (parse_headers phr self body).1 = none ∧
        (parse_headers phr self body).2.parsed.type = request_type_t.post_k) ∧
    (0 ≤ (phr body.bytes).res → (phr body.bytes).method = ascii "DELETE" →
      (parse_headers phr self body).1 = none ∧
        (parse_headers phr self body).2.parsed.type = request_type_t.delete_k) ∧
    (∀ e, (parse_headers phr self body).1 = some e →
      e.code = -206 ∨ e.code = -400 ∨ e.code = -405) := by
  have ok : ∀ t, 0 ≤ (phr body.bytes).res → request_type_of (phr body.bytes).method = some t →
      (parse_headers phr self body).1 = none ∧
        (parse_headers phr self body).2.parsed.type = t := by
    intro t hres ht
    have h1 : ¬ (phr body.bytes).res = -2 := by omega
    have h2 : ¬ (phr body.bytes).res < 0 := by omega
    simp only [parse_headers, h1, h2, if_false, ht]
    cases find crlf_crlf body.bytes with
    | none => exact ⟨rfl, (scan_headers_frame _ _).2.1⟩
    | some pos => exact ⟨rfl, (scan_headers_frame _ _).2.1⟩
  refine ⟨?_, ?_, ?_, ?_, ?_, ?_, ?_, ?_⟩
  · intro h
    simp [parse_headers, h]
  · intro h h2
    simp [parse_headers, h, h2]
  · intro h hm
    have h1 : ¬ (phr body.bytes).res = -2 := by omega
    have h2 : ¬ (phr body.bytes).res < 0 := by omega
    simp [parse_headers, h1, h2, request_type_of_unsupported _ hm]
  · intro h hm
    exact ok _ h (by rw [hm]; decide)
  · intro h hm
    exact ok _ h (by rw [hm]; decide)
  · intro h hm
    exact ok _ h (by rw [hm]; decide)
  · intro h hm
    exact ok _ h (by rw [hm]; decide)
  · intro e he
    unfold parse_headers at he
    simp only at he
    split_ifs at he with h1 h2
    · simp at he
      subst he
      simp
    · simp at he
      subst he
      simp
    · cases ht : request_type_of (phr body.bytes).method with
      | none =>
        rw [ht] at he
        simp at he
        subst he
        simp
      | some t =>
        rw [ht] at he
        cases hf : find crlf_crlf body.bytes <;> rw [hf] at he <;> simp at he

/-- C5 on concrete requests: the 38 header bytes of the POST request are mapped to `post_k`. -/
theorem parse_headers_result_mapping_witness :
    (parse_headers post_phr fresh ⟨4096, post_request⟩).1 = none ∧
      (parse_headers post_phr fresh ⟨4096, post_request⟩).2.parsed.type =
        request_type_t.post_k :=
  (parse_headers_result_mapping post_phr fresh ⟨4096, post_request⟩).2.2.2.2.2.1
    (by decide) (by decide)

/-- C6, evaluated on the code: after the POST request with `Content-Length: 2` was parsed,
a successful `parse_headers` on `get_request`, which has no header at all, leaves
`parsed.content_length` as the earlier request set it (one byte long, not empty); and on
`lf_request`, which holds no `"\r\n\r\n"`, it leaves `parsed.body` as the earlier request
set it (two bytes long, not empty). -/
theorem parse_headers_keeps_stale_fields :
    (parse_headers demo_phr (parse_headers demo_phr fresh ⟨4096, post_request⟩).2
      ⟨4096, get_request⟩).1 = none ∧
    header_value (ascii "Content-Length") (demo_phr get_request).headers = none ∧
    (parse_headers demo_phr (parse_headers demo_phr fresh ⟨4096, post_request⟩).2
      ⟨4096, get_request⟩).2.parsed.content_length =
      (parse_headers demo_phr fresh ⟨4096, post_request⟩).2.parsed.content_length ∧
    (parse_headers demo_phr (parse_headers demo_phr fresh ⟨4096, post_request⟩).2
      ⟨4096, get_request⟩).2.parsed.content_length.length = 1 ∧
    (parse_headers demo_phr (parse_headers demo_phr fresh ⟨4096, post_request⟩).2
      ⟨4096, lf_request⟩).1 = none ∧
    find crlf_crlf lf_request = none ∧
    (parse_headers demo_phr (parse_headers demo_phr fresh ⟨4096, post_request⟩).2
      ⟨4096, lf_request⟩).2.parsed.body = ⟨4096 + 38, ascii "\x7b\x7d"⟩ := by
  decide

/-- C7: when `parse_headers` succeeds on an input whose first `"\r\n\r\n"` is at offset `p`,
the resulting body is the suffix of the input that starts at offset `p + 4`: its address is
`p + 4` bytes past the start of the input, its length is `|input| - p - 4`, and the input is
the `p` bytes before the terminator, the four terminator bytes, and the body. -/
theorem parse_headers_body_location (phr : List Nat → phr_request)
    (self : http_protocol_t) (body : span_gt) (p : Nat)
    (hok : (parse_headers phr self body).1 = none)
    (hp : first_occurrence crlf_crlf body.bytes p) :
    (parse_headers phr self body).2.parsed.body =
        ⟨body.data + (p + 4), body.bytes.drop (p + 4)⟩ ∧
      (parse_headers phr self body).2.parsed.body.bytes.length = body.bytes.length - p - 4 ∧
      body.bytes = body.bytes.take p ++ crlf_crlf ++
        (parse_headers phr self body).2.parsed.body.bytes := by
  have hf := find_of_first_occurrence crlf_crlf body.bytes p hp
  have hbody : (parse_headers phr self body).2.parsed.body =
      ⟨body.data + (p + 4), body.bytes.drop (p + 4)⟩ := by
    by_cases h1 : (phr body.bytes).res = -2
    · simp [parse_headers, h1] at hok
    · by_cases h2 : (phr body.bytes).res < 0
      · simp [parse_headers, h1, h2] at hok
      · cases ht : request_type_of (phr body.bytes).method with
        | none => simp [parse_headers, h1, h2, ht] at hok
        | some t => simp only [parse_headers, h1, h2, if_false, ht, hf]
  refine ⟨hbody, ?_, ?_⟩
  · rw [hbody]
    simp only [List.length_drop]
    omega
  · rw [hbody]
    simp only
    have h4 : (body.bytes.drop p).take 4 = crlf_crlf := hp.1
    have e1 : body.bytes.drop p = (body.bytes.drop p).take 4 ++ (body.bytes.drop p).drop 4 :=
      (List.take_append_drop 4 _).symm
    rw [h4, List.drop_drop] at e1
    have e2 : body.bytes = body.bytes.take p ++ body.bytes.drop p :=
      (List.take_append_drop p _).symm
    rw [e1] at e2
    rw [List.append_assoc]
    exact e2

/-- C7 on the 40-byte POST request: the body starts at offset 38. -/
theorem parse_headers_body_location_witness :
    (parse_headers post_phr fresh ⟨4096, post_request⟩).2.parsed.body =
      ⟨4096 + (34 + 4), post_request.drop (34 + 4)⟩ :=
  (parse_headers_body_location post_phr fresh ⟨4096, post_request⟩ 34 (by decide)
    (by decide)).1

/-! ## `finalize_response` (C8 to C10) -/

theorem decimal_head (n : Nat) (hn : n ≠ 0) : (decimal n).head? ≠ some 48 := by
  induction n using Nat.strong_induction_on with
  | _ n ih =>
    by_cases h : n < 10
    · rw [decimal_small n h]
      simp
      omega
    · rw [decimal_big n (by omega)]
      have hne := decimal_ne_nil (n / 10)
      cases hd : decimal (n / 10) with
      | nil => exact absurd hd hne
      | cons c cs =>
        have := ih (n / 10) (by omega) (by omega)
        rw [hd] at this
        simpa using this

theorem finalized_eq (self : http_protocol_t) (body : List Nat) (hL : body.length < 10 ^ 9) :
    (finalized self body).2.output =
      http_header_k.take 33 ++
        ((decimal body.length ++ List.replicate (9 - (decimal body.length).length) 32) ++
          (http_header_k.drop 42 ++ body)) :=
  finalized_output self body hL

theorem framed_eq (self : http_protocol_t) (body : List Nat) :
    (framed self body).output =
      http_header_k.take 33 ++ (List.replicate 9 32 ++ (http_header_k.drop 42 ++ body)) := by
  have h := (prepared_output self body).2.1
  unfold framed
  rw [h]
  conv_lhs => rw [http_header_k_layout]
  simp [List.append_assoc]

theorem finalized_field (self : http_protocol_t) (body : List Nat)
    (hL : body.length < 10 ^ 9) :
    length_field (finalized self body).2.output =
      decimal body.length ++ List.replicate (9 - (decimal body.length).length) 32 := by
  have hd : (decimal body.length).length ≤ 9 := decimal_length_le 8 _ hL
  have h33 : (http_header_k.take 33).length = 33 := by decide
  rw [finalized_eq self body hL]
  unfold length_field http_header_length_offset_k http_header_length_capacity_k
  rw [List.drop_left' h33, List.take_left']
  simp
  omega

theorem frame_outside_field (a m m' r : List Nat) (i : Nat) (ha : a.length = 33)
    (hm : m.length = 9) (hm' : m'.length = 9) (hi : i < 33 ∨ 42 ≤ i) :
    (a ++ (m ++ r))[i]? = (a ++ (m' ++ r))[i]? := by
  rcases hi with hi | hi
  · rw [List.getElem?_append_left (by omega), List.getElem?_append_left (by omega)]
  · rw [List.getElem?_append_right (by omega), List.getElem?_append_right (by omega),
      List.getElem?_append_right (by omega), List.getElem?_append_right (by omega),
      ha, hm, hm']

/-- C8: after `prepare_response` on an empty output sink and a body of length `L < 10^9`,
`finalize_response` keeps the length of the output, leaves in the 9-byte field at offsets
33 to 41 only decimal digits and spaces, which read as `L` (the bytes other than spaces are
the decimal text of `L`, whose value is `L`), and changes no byte at an offset below 33 or
from 42 on, that is no other byte of the preamble and no byte of the body. -/
theorem finalize_response_patches_length (self : http_protocol_t) (body : List Nat)
    (hL : body.length < 10 ^ 9) :
    (framed self body).output = http_header_k ++ body ∧
    (finalized self body).2.output.length = (framed self body).output.length ∧
    (∀ b ∈ length_field (finalized self body).2.output, b = 32 ∨ is_digit b = true) ∧
    (length_field (finalized self body).2.output).filter (fun b => b ≠ 32) =
      decimal body.length ∧
    from_chars ((length_field (finalized self body).2.output).filter (fun b => b ≠ 32)) 0 =
      body.length ∧
    (∀ i, i < 33 ∨ 42 ≤ i →
      (finalized self body).2.output[i]? = (framed self body).output[i]?) := by
  have hd : (decimal body.length).length ≤ 9 := decimal_length_le 8 _ hL
  have hdig := decimal_all_digits body.length
  have hfield := finalized_field self body hL
  have hfilter : (length_field (finalized self body).2.output).filter (fun b => b ≠ 32) =
      decimal body.length := by
    rw [hfield, List.filter_append]
    have h1 : (decimal body.length).filter (fun b => b ≠ 32) = decimal body.length := by
      apply List.filter_eq_self.mpr
      intro b hb
      have := hdig b hb
      simp [is_digit] at this
      simp
      omega
    have h2 : (List.replicate (9 - (decimal body.length).length) 32).filter
        (fun b => b ≠ 32) = [] := by
      apply List.filter_eq_nil_iff.mpr
      intro b hb
      have := List.eq_of_mem_replicate hb
      simp [this]
    rw [h1, h2, List.append_nil]
  have h33 : (http_header_k.take 33).length = 33 := by decide
  have hfin := finalized_eq self body hL
  have hfra := framed_eq self body
  refine ⟨(prepared_output self body).2.1, ?_, ?_, hfilter, ?_, ?_⟩
  · rw [hfin, hfra]
    simp
    omega
  · intro b hb
    rw [hfield] at hb
    rcases List.mem_append.mp hb with hb | hb
    · exact Or.inr (hdig b hb)
    · exact Or.inl (List.eq_of_mem_replicate hb)
  · rw [hfilter]
    exact from_chars_decimal _ 0 (by unfold size_max; omega)
  · intro i hi
    rw [hfin, hfra]
    exact frame_outside_field _ _ _ _ i h33 (by simp; omega) (by simp) hi

/-- C8 on a body of five bytes. -/
theorem finalize_response_patches_length_witness :
    (length_field (finalized fresh (ascii "hello")).2.output).filter (fun b => b ≠ 32) =
      decimal (ascii "hello").length :=
  (finalize_response_patches_length fresh (ascii "hello") (by decide)).2.2.2.1

/-- C9, as stated, fails: for a body of five bytes the last byte of the field (offset 41)
is a space and the digit `5` stands in the first byte of the field (offset 33): the length
is rendered at the start of the field, not at its end. -/
theorem finalize_response_not_right_aligned :
    (ascii "hello").length = 5 ∧ decimal 5 = ascii "5" ∧
    (finalized fresh (ascii "hello")).2.output[41]? = some 32 ∧
    (finalized fresh (ascii "hello")).2.output[33]? = some 53 ∧
    length_field (finalized fresh (ascii "hello")).2.output = ascii "5        " := by
  decide

/-- C9, amended: for every body length `L < 10^9`, `finalize_response` renders `L`
left-aligned within the 9-character field: the decimal digits of `L`, between one and nine of
them and without a leading zero, come first, the first of them at offset 33, and the padding
spaces follow them up to offset 41. -/
theorem finalize_response_left_aligned (self : http_protocol_t) (body : List Nat)
    (hL : body.length < 10 ^ 9) :
    length_field (finalized self body).2.output =
      decimal body.length ++ List.replicate (9 - (decimal body.length).length) 32 ∧
    1 ≤ (decimal body.length).length ∧ (decimal body.length).length ≤ 9 ∧
    (body.length ≠ 0 → (decimal body.length).head? ≠ some 48) ∧
    (finalized self body).2.output[33]? = (decimal body.length).head? := by
  have hd : (decimal body.length).length ≤ 9 := decimal_length_le 8 _ hL
  have hne := decimal_ne_nil body.length
  have h33 : (http_header_k.take 33).length = 33 := by decide
  refine ⟨finalized_field self body hL, List.length_pos.mpr hne, hd,
    decimal_head body.length, ?_⟩
  rw [finalized_eq self body hL, List.getElem?_append_right (by omega)]
  cases hdec : decimal body.length with
  | nil => exact absurd hdec hne
  | cons c cs => simp [h33]

/-- C9, amended, on a body of five bytes. -/
theorem finalize_response_left_aligned_witness :
    length_field (finalized fresh (ascii "hello")).2.output =
      decimal (ascii "hello").length ++
        List.replicate (9 - (decimal (ascii "hello").length).length) 32 :=
  (finalize_response_left_aligned fresh (ascii "hello") (by decide)).1

/-- C10, evaluated on the code: with a body of `10^9` bytes after the preamble,
`finalize_response` hands back nothing but the object, with `body_size = 10^9`, and the
pipes, whose output is unchanged; the call has no result through which the failure of
`to_chars` could reach the caller. -/
theorem finalize_response_ignores_overflow :
    finalized fresh (List.replicate 1000000000 120) =
      ({ (prepare_response fresh ⟨[]⟩).1 with body_size := 1000000000 },
       framed fresh (List.replicate 1000000000 120)) := by
  obtain ⟨h1, h2, _⟩ := prepared_output fresh (List.replicate 1000000000 120)
  have hk : http_header_k.length = 78 := by decide
  unfold finalized
  exact finalize_response_too_wide _ _ 1000000000
    (by
      unfold framed
      rw [h2, h1, List.length_append, List.length_replicate, hk])
    (by norm_num) (by unfold size_max; norm_num)

/-! ## Lemmas on `find_callback` -/

theorem find_callback_invalid (K : Nat) (callbacks : List named_callback_t)
    (scratch : scratch_space_t) (h : envelope_ok scratch.tree = false) :
    (find_callback K callbacks scratch).1.code = some (-32600) ∧
      (find_callback K callbacks scratch).2 = scratch := by
  unfold envelope_ok at h
  unfold find_callback
  by_cases h1 : scratch.tree.is_object = true
  · by_cases h2 : (scratch.tree.field (ascii "jsonrpc")).is_string = true ∧
        (scratch.tree.field (ascii "jsonrpc")).get_string = ascii "2.0"
    · by_cases h3 : (((scratch.tree.field (ascii "id")).is_double &&
          !(scratch.tree.field (ascii "id")).is_int64 &&
          !(scratch.tree.field (ascii "id")).is_uint64) ||
          (scratch.tree.field (ascii "id")).is_object ||
          (scratch.tree.field (ascii "id")).is_array) = true
      · simp only [h1, h2.1, h2.2, h3]
        simp [callback_or_error.code]
      · by_cases h4 : (scratch.tree.field (ascii "method")).is_string = true
        · by_cases h5 : (!(scratch.tree.field (ascii "params")).is_array &&
              !(scratch.tree.field (ascii "params")).is_object &&
              decide ((scratch.tree.field (ascii "params")).error = error_code.SUCCESS)) = true
          · simp only [h1, h2.1, h2.2, h3, h4, h5]
            simp [callback_or_error.code]
          · exfalso
            simp only [h1, h2.1, h2.2, h3, h4, h5] at h
            simp at h
        · simp only [h1, h2.1, h2.2, h3, h4]
          simp [callback_or_error.code]
    · have h2' : (!(scratch.tree.field (ascii "jsonrpc")).is_string ||
          decide ((scratch.tree.field (ascii "jsonrpc")).get_string ≠ ascii "2.0")) = true := by
        by_cases ha : (scratch.tree.field (ascii "jsonrpc")).is_string = true
        · have hb : (scratch.tree.field (ascii "jsonrpc")).get_string ≠ ascii "2.0" :=
            fun hb => h2 ⟨ha, hb⟩
          simp [hb]
        · simp [ha]
      simp only [h1, h2']
      simp [callback_or_error.code]
  · simp only [h1]
    simp [callback_or_error.code]

theorem find_callback_valid (K : Nat) (callbacks : List named_callback_t)
    (scratch : scratch_space_t) (h : envelope_ok scratch.tree = true) :
    find_callback K callbacks scratch =
      match store_id K scratch (scratch.tree.field (ascii "id")) with
      | (false, stored) =>
        (callback_or_error.error ⟨-32600, "The request ID is invalid integer."⟩, stored)
      | (true, stored) =>
        match find_if callbacks (scratch.tree.field (ascii "method")).get_string with
        | none => (callback_or_error.error ⟨-32601, "Method not found."⟩, stored)
        | some callback => (callback_or_error.callback callback.callback, stored) := by
  unfold envelope_ok at h
  simp only [Bool.and_eq_true, Bool.not_eq_true', decide_eq_true_eq] at h
  obtain ⟨⟨⟨⟨h1, h2a, h2b⟩, h3⟩, h4⟩, h5⟩ := h
  unfold find_callback
  simp only [h1, h2a, h2b, h3, h4, h5]
  simp


theorem field_string_iff (r : simdjson_result) (s : List Nat) :
    (r.is_string = true ∧ r.get_string = s) ↔ r = simdjson_result.value (element.string s) := by
  constructor
  · intro h
    cases r with
    | failure e => simp [simdjson_result.is_string] at h
    | value v =>
      cases v <;> simp [simdjson_result.is_string, simdjson_result.get_string] at h ⊢
      exact h
  · intro h
    subst h
    simp [simdjson_result.is_string, simdjson_result.get_string]

theorem is_string_iff (r : simdjson_result) :
    r.is_string = true ↔ ∃ s, r = simdjson_result.value (element.string s) := by
  constructor
  · intro h
    exact ⟨r.get_string, (field_string_iff r _).mp ⟨h, rfl⟩⟩
  · rintro ⟨s, hs⟩
    exact ((field_string_iff r s).mpr hs).1

theorem envelope_ok_method (tree : element) (h : envelope_ok tree = true) :
    ∃ m, tree.field (ascii "method") = simdjson_result.value (element.string m) := by
  unfold envelope_ok at h
  simp only [Bool.and_eq_true] at h
  exact (is_string_iff _).mp h.1.2

theorem find_callback_no_params_note (K : Nat) (callbacks : List named_callback_t)
    (scratch : scratch_space_t)
    (h : (scratch.tree.field (ascii "params")).error ≠ error_code.SUCCESS) :
    (find_callback K callbacks scratch).1 ≠
      callback_or_error.error ⟨-32600, "Parameters can only be passed in arrays or objects."⟩ := by
  have h5 : (!(scratch.tree.field (ascii "params")).is_array &&
      !(scratch.tree.field (ascii "params")).is_object &&
      decide ((scratch.tree.field (ascii "params")).error = error_code.SUCCESS)) = false := by
    simp [h]
  unfold find_callback
  simp only [h5, Bool.false_eq_true, if_false]
  split_ifs
  · simp
  · simp
  · simp
  · simp
  · rcases store_id K scratch (scratch.tree.field (ascii "id")) with ⟨ok, stored⟩
    cases ok
    · simp
    · cases find_if callbacks (scratch.tree.field (ascii "method")).get_string <;> simp


theorem envelope_ok_parts (tree : element) (h : envelope_ok tree = true) :
    tree.is_object = true ∧
    tree.field (ascii "jsonrpc") = simdjson_result.value (element.string (ascii "2.0")) ∧
    (((tree.field (ascii "id")).is_double && !(tree.field (ascii "id")).is_int64 &&
        !(tree.field (ascii "id")).is_uint64) ||
      (tree.field (ascii "id")).is_object || (tree.field (ascii "id")).is_array) = false ∧
    (∃ m, tree.field (ascii "method") = simdjson_result.value (element.string m)) ∧
    (!(tree.field (ascii "params")).is_array && !(tree.field (ascii "params")).is_object &&
      decide ((tree.field (ascii "params")).error = error_code.SUCCESS)) = false := by
  have hm := envelope_ok_method tree h
  unfold envelope_ok at h
  simp only [Bool.and_eq_true, Bool.not_eq_true', decide_eq_true_eq] at h
  obtain ⟨⟨⟨⟨h1, h2a, h2b⟩, h3⟩, _⟩, h5⟩ := h
  exact ⟨h1, (field_string_iff _ _).mp ⟨h2a, h2b⟩, h3, hm, h5⟩

theorem envelope_ok_of_parts (tree : element)
    (h1 : tree.is_object = true)
    (h2 : tree.field (ascii "jsonrpc") = simdjson_result.value (element.string (ascii "2.0")))
    (h3 : (((tree.field (ascii "id")).is_double && !(tree.field (ascii "id")).is_int64 &&
        !(tree.field (ascii "id")).is_uint64) ||
      (tree.field (ascii "id")).is_object || (tree.field (ascii "id")).is_array) = false)
    (h4 : ∃ m, tree.field (ascii "method") = simdjson_result.value (element.string m))
    (h5 : (!(tree.field (ascii "params")).is_array && !(tree.field (ascii "params")).is_object &&
      decide ((tree.field (ascii "params")).error = error_code.SUCCESS)) = false) :
    envelope_ok tree = true := by
  have h2' := (field_string_iff _ _).mpr h2
  have h4' := (is_string_iff _).mpr h4
  unfold envelope_ok
  simp only [h1, h2'.1, h2'.2, h3, h4', h5]
  simp

theorem find_callback_code_of_not_ok (K : Nat) (callbacks : List named_callback_t)
    (scratch : scratch_space_t) (h : ¬ envelope_ok scratch.tree = true) :
    (find_callback K callbacks scratch).1.code = some (-32600) :=
  (find_callback_invalid K callbacks scratch (by simpa using h)).1

theorem find_if_eq_none (callbacks : List named_callback_t) (m : List Nat) :
    find_if callbacks m = none ↔ ∀ cb ∈ callbacks, cb.name ≠ m := by
  unfold find_if
  rw [List.find?_eq_none]
  simp

theorem find_if_first (front : List named_callback_t) (cb : named_callback_t)
    (back : List named_callback_t) (m : List Nat) (hcb : cb.name = m)
    (hfront : ∀ c ∈ front, c.name ≠ m) :
    find_if (front ++ cb :: back) m = some cb := by
  unfold find_if
  induction front with
  | nil => simp [hcb]
  | cons c front ih =>
    have hc : c.name ≠ m := hfront c (by simp)
    have := ih (fun c' hc' => hfront c' (by simp [hc']))
    simp [List.find?_cons, hc, this]

theorem store_id_absent (K : Nat) (scratch : scratch_space_t) (r : simdjson_result)
    (h : r.is_string = false ∧ r.is_int64 = false ∧ r.is_uint64 = false) :
    store_id K scratch r = (true, { scratch with dynamic_id := [] }) := by
  simp [store_id, h.1, h.2.1, h.2.2]

theorem queries_of_failure (r : simdjson_result) (h : r.error ≠ error_code.SUCCESS) :
    r.is_string = false ∧ r.is_int64 = false ∧ r.is_uint64 = false ∧ r.is_double = false ∧
      r.is_object = false ∧ r.is_array = false := by
  cases r with
  | value v => simp [simdjson_result.error] at h
  | failure e =>
    simp [simdjson_result.is_string, simdjson_result.is_int64, simdjson_result.is_uint64,
      simdjson_result.is_double, simdjson_result.is_object, simdjson_result.is_array]

theorem find_callback_stored (K : Nat) (callbacks : List named_callback_t)
    (scratch stored : scratch_space_t) (h : envelope_ok scratch.tree = true)
    (hs : store_id K scratch (scratch.tree.field (ascii "id")) = (true, stored)) :
    (find_callback K callbacks scratch).1.code ≠ some (-32600) ∧
      (find_callback K callbacks scratch).2 = stored := by
  rw [find_callback_valid K callbacks scratch h, hs]
  cases find_if callbacks (scratch.tree.field (ascii "method")).get_string <;>
    simp [callback_or_error.code]


/-! ## The response preamble (C11) -/

/-- C11: the template `http_header_k` is exactly `http_header_size_k = 78` bytes long; it
starts with `"HTTP/1.1 200 OK\r\n"` followed by `"Content-Length:"`; the 9 bytes at offsets
`http_header_length_offset_k = 33` to 41 are spaces and are followed by `"\r\n"`; then come
`"Content-Type: application/json"` and the final `"\r\n\r\n"`.  `prepare_response` appends
exactly these 78 bytes to the output and records the resulting output length in `body_size`. -/
theorem http_header_k_wire_layout :
    http_header_k.length = http_header_size_k ∧ http_header_size_k = 78 ∧
    http_header_k.take 17 = ascii "HTTP/1.1 200 OK\r\n" ∧
    (http_header_k.drop 17).take 15 = ascii "Content-Length:" ∧
    http_header_length_offset_k = 33 ∧
    length_field http_header_k = List.replicate 9 32 ∧
    (http_header_k.drop 42).take 2 = ascii "\r\n" ∧
    http_header_k.drop 44 = ascii "Content-Type: application/json\r\n\r\n" ∧
    ∀ (self : http_protocol_t) (pipes : exchange_pipes_t),
      (prepare_response self pipes).2.output = pipes.output ++ http_header_k ∧
      (prepare_response self pipes).1.body_size =
        (prepare_response self pipes).2.output.length ∧
      (prepare_response self pipes).2.output.length = pipes.output.length + 78 := by
  refine ⟨by decide, rfl, by decide, by decide, rfl, by decide, by decide, by decide, ?_⟩
  intro self pipes
  have h : http_header_k.take 78 = http_header_k := by decide
  have h2 : http_header_k.length = 78 := by decide
  simp [prepare_response, append_reserved, http_header_size_k, h, h2]

/-! ## `find_callback` (C12 to C15, C20) -/

/-- C12: `find_callback` returns an error with code `-32600` whenever the root is not an
object, or the `jsonrpc` member is not the string `"2.0"` (missing included), or the `method`
member is not a string (missing included), or the `params` member is present and is neither
an array nor an object.  An absent `params` member never yields the `params` error, and a
request without `id` and `params` whose other members are valid is not rejected. -/
theorem find_callback_rejects_envelope (K : Nat) (callbacks : List named_callback_t)
    (scratch : scratch_space_t) :
    (scratch.tree.is_object = false →
      (find_callback K callbacks scratch).1.code = some (-32600)) ∧
    (scratch.tree.field (ascii "jsonrpc") ≠
        simdjson_result.value (element.string (ascii "2.0")) →
      (find_callback K callbacks scratch).1.code = some (-32600)) ∧
    ((∀ m, scratch.tree.field (ascii "method") ≠ simdjson_result.value (element.string m)) →
      (find_callback K callbacks scratch).1.code = some (-32600)) ∧
    ((∃ e, scratch.tree.field (ascii "params") = simdjson_result.value e ∧
        (∀ items, e ≠ element.array items) ∧ (∀ fields, e ≠ element.object fields)) →
      (find_callback K callbacks scratch).1.code = some (-32600)) ∧
    ((scratch.tree.field (ascii "params")).error ≠ error_code.SUCCESS →
      (find_callback K callbacks scratch).1 ≠ callback_or_error.error
        ⟨-32600, "Parameters can only be passed in arrays or objects."⟩) ∧
    (scratch.tree.is_object = true →
      scratch.tree.field (ascii "jsonrpc") =
        simdjson_result.value (element.string (ascii "2.0")) →
      (∃ m, scratch.tree.field (ascii "method") = simdjson_result.value (element.string m)) →
      (scratch.tree.field (ascii "id")).error ≠ error_code.SUCCESS →
      (scratch.tree.field (ascii "params")).error ≠ error_code.SUCCESS →
      (find_callback K callbacks scratch).1.code ≠ some (-32600)) := by
  refine ⟨?_, ?_, ?_, ?_, find_callback_no_params_note K callbacks scratch, ?_⟩
  · intro h
    apply find_callback_code_of_not_ok
    intro hok
    rw [(envelope_ok_parts _ hok).1] at h
    exact Bool.noConfusion h
  · intro h
    apply find_callback_code_of_not_ok
    intro hok
    exact h (envelope_ok_parts _ hok).2.1
  · intro h
    apply find_callback_code_of_not_ok
    intro hok
    obtain ⟨m, hm⟩ := (envelope_ok_parts _ hok).2.2.2.1
    exact h m hm
  · rintro ⟨e, he, harr, hobj⟩
    apply find_callback_code_of_not_ok
    intro hok
    have h5 := (envelope_ok_parts _ hok).2.2.2.2
    rw [he] at h5
    cases e with
    | array items => exact harr items rfl
    | object fields => exact hobj fields rfl
    | _ =>
      simp [simdjson_result.is_array, simdjson_result.is_object, simdjson_result.error] at h5
  · intro h1 h2 h4 hid hpar
    have qi := queries_of_failure _ hid
    have qp := queries_of_failure _ hpar
    have hok : envelope_ok scratch.tree = true :=
      envelope_ok_of_parts _ h1 h2 (by simp [qi.2.2.2.1, qi.2.2.2.2.1, qi.2.2.2.2.2]) h4
        (by simp [hpar])
    exact (find_callback_stored K callbacks scratch _ hok
      (store_id_absent K scratch _ ⟨qi.1, qi.2.1, qi.2.2.1⟩)).1

/-- C12 on a request whose `params` member is the number 5. -/
theorem find_callback_rejects_envelope_witness :
    (find_callback 32 demo_callbacks
      (scratch_of 256 32 (request_of none (some (element.int64 5))))).1.code =
      some (-32600) :=
  (find_callback_rejects_envelope 32 demo_callbacks
    (scratch_of 256 32 (request_of none (some (element.int64 5))))).2.2.2.1
    ⟨element.int64 5, rfl, fun _ h => element.noConfusion h,
      fun _ h => element.noConfusion h⟩

/-- C13, evaluated on the code: a request whose `id` member is present and is the boolean
`true`, or `null`, neither an integer nor a string, is not rejected with `-32600`: the guard
`id_invalid` tests for a non-integral number, an object and an array only, although its
message reads "The request must have integer or string id."; `find_callback` resolves the
method and returns the handle. -/
theorem find_callback_accepts_bool_id :
    ((request_of (some (element.bool true)) none).field (ascii "id")).error =
      error_code.SUCCESS ∧
    ((request_of (some (element.bool true)) none).field (ascii "id")).is_int64 = false ∧
    ((request_of (some (element.bool true)) none).field (ascii "id")).is_uint64 = false ∧
    ((request_of (some (element.bool true)) none).field (ascii "id")).is_string = false ∧
    (find_callback 32 demo_callbacks
      (scratch_of 256 32 (request_of (some (element.bool true)) none))).1 =
      callback_or_error.callback 1 ∧
    (find_callback 32 demo_callbacks
      (scratch_of 256 32 (request_of (some element.null_value) none))).1 =
      callback_or_error.callback 1 := by
  decide

/-- What the id guard of `find_callback` does: an `id` member that is an object, an array or
a non-integral number gives the error `-32600`; a boolean or null `id` passes the guard and,
when the other members are valid, the request goes on to resolution with an empty
`dynamic_id`. -/
theorem find_callback_rejects_id_shape (K : Nat) (callbacks : List named_callback_t)
    (scratch : scratch_space_t) (e : element)
    (hid : scratch.tree.field (ascii "id") = simdjson_result.value e) :
    (((∃ fields, e = element.object fields) ∨ (∃ items, e = element.array items) ∨
        (∃ d, e = element.double d)) →
      (find_callback K callbacks scratch).1.code = some (-32600)) ∧
    ((e = element.null_value ∨ ∃ b, e = element.bool b) →
      scratch.tree.is_object = true →
      scratch.tree.field (ascii "jsonrpc") =
        simdjson_result.value (element.string (ascii "2.0")) →
      (∃ m, scratch.tree.field (ascii "method") = simdjson_result.value (element.string m)) →
      (!(scratch.tree.field (ascii "params")).is_array &&
        !(scratch.tree.field (ascii "params")).is_object &&
        decide ((scratch.tree.field (ascii "params")).error = error_code.SUCCESS)) = false →
      (find_callback K callbacks scratch).1.code ≠ some (-32600) ∧
        (find_callback K callbacks scratch).2.dynamic_id = []) := by
  constructor
  · intro hshape
    apply find_callback_code_of_not_ok
    intro hok
    have h3 := (envelope_ok_parts _ hok).2.2.1
    rw [hid] at h3
    rcases hshape with ⟨f, rfl⟩ | ⟨a, rfl⟩ | ⟨d, rfl⟩ <;>
      simp [simdjson_result.is_double, simdjson_result.is_int64, simdjson_result.is_uint64,
        simdjson_result.is_object, simdjson_result.is_array] at h3
  · intro hshape h1 h2 h4 h5
    have q : (scratch.tree.field (ascii "id")).is_string = false ∧
        (scratch.tree.field (ascii "id")).is_int64 = false ∧
        (scratch.tree.field (ascii "id")).is_uint64 = false ∧
        (scratch.tree.field (ascii "id")).is_double = false ∧
        (scratch.tree.field (ascii "id")).is_object = false ∧
        (scratch.tree.field (ascii "id")).is_array = false := by
      rw [hid]
      rcases hshape with rfl | ⟨b, rfl⟩ <;>
        simp [simdjson_result.is_string, simdjson_result.is_int64,
          simdjson_result.is_uint64, simdjson_result.is_double, simdjson_result.is_object,
          simdjson_result.is_array]
    have hok : envelope_ok scratch.tree = true :=
      envelope_ok_of_parts _ h1 h2 (by simp [q.2.2.2.1, q.2.2.2.2.1, q.2.2.2.2.2]) h4 h5
    have hs := find_callback_stored K callbacks scratch _ hok
      (store_id_absent K scratch _ ⟨q.1, q.2.1, q.2.2.1⟩)
    exact ⟨hs.1, by rw [hs.2]⟩

/-- C14: for every request that passes envelope validation (the outcome is not an error
`-32600`), the `method` member is a string `m`; the outcome is the error
`{-32601, "Method not found."}` exactly when no table entry is named `m`, byte for byte; and
when an entry is named `m` the outcome is the handle of the first such entry in table order. -/
theorem find_callback_resolves_method (K : Nat) (callbacks : List named_callback_t)
    (scratch : scratch_space_t)
    (hvalid : (find_callback K callbacks scratch).1.code ≠ some (-32600)) :
    ∃ m, scratch.tree.field (ascii "method") = simdjson_result.value (element.string m) ∧
      ((find_callback K callbacks scratch).1 =
          callback_or_error.error ⟨-32601, "Method not found."⟩ ↔
        ∀ cb ∈ callbacks, cb.name ≠ m) ∧
      (∀ (front : List named_callback_t) (cb : named_callback_t)
          (back : List named_callback_t),
        callbacks = front ++ cb :: back → cb.name = m → (∀ c ∈ front, c.name ≠ m) →
        (find_callback K callbacks scratch).1 = callback_or_error.callback cb.callback) := by
  have hok : envelope_ok scratch.tree = true := by
    by_contra h
    exact hvalid (find_callback_code_of_not_ok K callbacks scratch h)
  obtain ⟨m, hm⟩ := (envelope_ok_parts _ hok).2.2.2.1
  have hget : (scratch.tree.field (ascii "method")).get_string = m := by
    rw [hm]
    rfl
  have hfc := find_callback_valid K callbacks scratch hok
  rw [hget] at hfc
  refine ⟨m, hm, ?_, ?_⟩
  · rcases hst : store_id K scratch (scratch.tree.field (ascii "id")) with ⟨ok, stored⟩
    cases ok
    · rw [hst] at hfc
      rw [hfc] at hvalid
      exact absurd rfl hvalid
    · rw [hst] at hfc
      rw [← find_if_eq_none]
      cases hfi : find_if callbacks m with
      | none =>
        rw [hfi] at hfc
        simp [hfc]
      | some cb =>
        rw [hfi] at hfc
        simp [hfc]
  · intro front cb back hcbs hcb hfront
    have hfi : find_if callbacks m = some cb := by
      rw [hcbs]
      exact find_if_first front cb back m hcb hfront
    rcases hst : store_id K scratch (scratch.tree.field (ascii "id")) with ⟨ok, stored⟩
    cases ok
    · rw [hst] at hfc
      rw [hfc] at hvalid
      exact absurd rfl hvalid
    · rw [hst, hfi] at hfc
      rw [hfc]

/-- C14 on the table `sum`, `Sum`, `sum`: the method `"sum"` resolves to the first entry. -/
theorem find_callback_resolves_method_witness :
    ∃ m, (scratch_of 256 32 (request_of (some (element.int64 42)) none)).tree.field
        (ascii "method") = simdjson_result.value (element.string m) ∧
      ((find_callback 32 demo_callbacks
          (scratch_of 256 32 (request_of (some (element.int64 42)) none))).1 =
          callback_or_error.error ⟨-32601, "Method not found."⟩ ↔
        ∀ cb ∈ demo_callbacks, cb.name ≠ m) ∧
      (∀ (front : List named_callback_t) (cb : named_callback_t)
          (back : List named_callback_t),
        demo_callbacks = front ++ cb :: back → cb.name = m → (∀ c ∈ front, c.name ≠ m) →
        (find_callback 32 demo_callbacks
          (scratch_of 256 32 (request_of (some (element.int64 42)) none))).1 =
          callback_or_error.callback cb.callback) :=
  find_callback_resolves_method 32 demo_callbacks
    (scratch_of 256 32 (request_of (some (element.int64 42)) none)) (by decide)


theorem store_id_string (K : Nat) (scratch : scratch_space_t) (s : List Nat) :
    store_id K scratch (simdjson_result.value (element.string s)) =
      (true, { scratch with dynamic_id := s }) := by
  simp [store_id, simdjson_result.is_string, simdjson_result.get_string]

theorem to_chars_int_fits (K : Nat) (i : Int) (hfit : (int_text i).length ≤ K) :
    to_chars_int K i = (int_text i, true) := by
  unfold to_chars_int int_text at *
  by_cases hneg : i < 0
  · simp only [hneg, if_true, List.length_cons] at hfit ⊢
    have h0 : ¬ K = 0 := by omega
    have h1 : (decimal (-i).toNat).length ≤ K - 1 := by omega
    simp only [h0, h1, if_true, if_false]
  · simp only [hneg, if_false] at hfit ⊢
    have hpos := List.length_pos.mpr (decimal_ne_nil i.toNat)
    have h0 : ¬ K = 0 := by omega
    simp only [h0, hfit, if_true, if_false]

theorem store_id_int64 (K : Nat) (scratch : scratch_space_t) (i : Int)
    (hfit : (int_text i).length ≤ K) (hbuf : K ≤ scratch.printed_int_id.length) :
    ∃ stored, store_id K scratch (simdjson_result.value (element.int64 i)) = (true, stored) ∧
      stored.dynamic_id = int_text i := by
  have htc := to_chars_int_fits K i hfit
  have hst : store_id K scratch (simdjson_result.value (element.int64 i)) =
      (true, { scratch with
        printed_int_id := write_at scratch.printed_int_id 0 (int_text i),
        dynamic_id := (write_at scratch.printed_int_id 0 (int_text i)).take
          (int_text i).length }) := by
    simp [store_id, simdjson_result.is_string, simdjson_result.is_int64,
      simdjson_result.get_int64, htc]
  refine ⟨_, hst, ?_⟩
  simp only
  rw [write_at_eq _ _ _ (by omega)]
  simp

/-- Where the source and the spec agree on the canonical id: for a string id, for an integer
id in the signed 64-bit range whose text fits the buffer, and for an absent id, a request
with a valid envelope leaves `canonical_id` in `dynamic_id`. -/
theorem find_callback_stores_canonical_id (K : Nat) (callbacks : List named_callback_t)
    (scratch : scratch_space_t) (hok : envelope_ok scratch.tree = true)
    (hbuf : K ≤ scratch.printed_int_id.length)
    (hid : (∃ s, scratch.tree.field (ascii "id") = simdjson_result.value (element.string s)) ∨
      (∃ i, scratch.tree.field (ascii "id") = simdjson_result.value (element.int64 i) ∧
        (int_text i).length ≤ K) ∨
      (scratch.tree.field (ascii "id")).error ≠ error_code.SUCCESS) :
    (find_callback K callbacks scratch).1.code ≠ some (-32600) ∧
      (find_callback K callbacks scratch).2.dynamic_id = canonical_id scratch.tree := by
  rcases hid with ⟨s, hs⟩ | ⟨i, hi, hfit⟩ | habsent
  · have h := find_callback_stored K callbacks scratch _ hok
      (by rw [hs]; exact store_id_string K scratch s)
    refine ⟨h.1, ?_⟩
    rw [h.2]
    simp [canonical_id, hs]
  · obtain ⟨stored, hst, hdyn⟩ := store_id_int64 K scratch i hfit hbuf
    have h := find_callback_stored K callbacks scratch stored hok (by rw [hi]; exact hst)
    refine ⟨h.1, ?_⟩
    rw [h.2, hdyn]
    simp [canonical_id, hi]
  · have q := queries_of_failure _ habsent
    have h := find_callback_stored K callbacks scratch _ hok
      (store_id_absent K scratch _ ⟨q.1, q.2.1, q.2.2.1⟩)
    refine ⟨h.1, ?_⟩
    rw [h.2]
    cases hf : scratch.tree.field (ascii "id") with
    | value v => rw [hf] at habsent; simp [simdjson_result.error] at habsent
    | failure e => simp [canonical_id, hf]

theorem store_id_failed (K : Nat) (scratch stored : scratch_space_t) (r : simdjson_result)
    (h : store_id K scratch r = (false, stored)) :
    stored = scratch ∨
      stored = { scratch with printed_int_id := write_at scratch.printed_int_id 0 [45] } := by
  unfold store_id at h
  by_cases h1 : r.is_string = true
  · simp [h1] at h
  · by_cases h2 : (r.is_int64 || r.is_uint64) = true
    · by_cases h3 : (to_chars_int K r.get_int64).2 = true
      · simp [h1, h2, h3] at h
      · simp only [h1, h2, h3, if_true, if_false, Prod.mk.injEq, true_and,
          Bool.false_eq_true] at h
        subst h
        have hw : (to_chars_int K r.get_int64).1 = [] ∨
            (to_chars_int K r.get_int64).1 = [45] := by
          unfold to_chars_int at h3 ⊢
          split_ifs at h3 ⊢ <;> simp at h3 ⊢
        rcases hw with hw | hw
        · left
          rw [hw]
          have : write_at scratch.printed_int_id 0 [] = scratch.printed_int_id := by
            cases scratch.printed_int_id <;> simp [write_at]
          rw [this]
        · right
          rw [hw]
    · simp [h1, h2] at h

/-- Every outcome `-32600` of `find_callback` leaves the scratch space as it was, but for
the minus sign that a failed rendering of a negative id has left in the first byte of
`printed_int_id`; the view `dynamic_id` is never reassigned. -/
theorem find_callback_rejected_frame (K : Nat) (callbacks : List named_callback_t)
    (scratch : scratch_space_t)
    (h : (find_callback K callbacks scratch).1.code = some (-32600)) :
    ((find_callback K callbacks scratch).2 = scratch ∨
      (find_callback K callbacks scratch).2 =
        { scratch with printed_int_id := write_at scratch.printed_int_id 0 [45] }) ∧
    (find_callback K callbacks scratch).2.dynamic_id = scratch.dynamic_id := by
  have key : (find_callback K callbacks scratch).2 = scratch ∨
      (find_callback K callbacks scratch).2 =
        { scratch with printed_int_id := write_at scratch.printed_int_id 0 [45] } := by
    by_cases hok : envelope_ok scratch.tree = true
    · rcases hst : store_id K scratch (scratch.tree.field (ascii "id")) with ⟨ok, stored⟩
      cases ok
      · rw [find_callback_valid K callbacks scratch hok, hst]
        exact store_id_failed K scratch stored _ hst
      · exact absurd h (find_callback_stored K callbacks scratch stored hok hst).1
    · exact Or.inl (find_callback_invalid K callbacks scratch (by simpa using hok)).2
  refine ⟨key, ?_⟩
  rcases key with e | e <;> rw [e]

/-- C15, evaluated on the code: for the request id `9223372036854775808`, which the DOM
reports as an unsigned 64-bit integer and whose 19-character text fits a buffer of 32 bytes,
`find_callback` validates the envelope, returns the handle, and leaves `"0"` as the canonical
id: the id branch tests `is_int64() || is_uint64()` but renders `get_int64()`. -/
theorem find_callback_unsigned_id :
    ((request_of (some (element.uint64 9223372036854775808)) none).field
      (ascii "id")).is_uint64 = true ∧
    decimal 9223372036854775808 = ascii "9223372036854775808" ∧
    (decimal 9223372036854775808).length ≤ 32 ∧
    (find_callback 32 demo_callbacks
      (scratch_of 256 32 (request_of (some (element.uint64 9223372036854775808)) none))).1 =
      callback_or_error.callback 1 ∧
    (find_callback 32 demo_callbacks
      (scratch_of 256 32
        (request_of (some (element.uint64 9223372036854775808)) none))).2.dynamic_id =
      ascii "0" := by
  decide

/-- C20, evaluated on the code: the scratch space still holds the id `"41"` of the previous
request.  A request rejected with `-32600` leaves it there.  A request with the id
`18446744073709551615` and a method absent from the table is answered `-32601`, and
`dynamic_id` then is `"0"`, not the canonical id `"18446744073709551615"` of that request. -/
theorem find_callback_id_update :
    (find_callback 32 []
      { scratch_of 256 32 (request_of none (some (element.int64 5))) with
        dynamic_id := ascii "41" }).1.code = some (-32600) ∧
    (find_callback 32 []
      { scratch_of 256 32 (request_of none (some (element.int64 5))) with
        dynamic_id := ascii "41" }).2.dynamic_id = ascii "41" ∧
    (find_callback 32 []
      { scratch_of 256 32 (request_of (some (element.uint64 18446744073709551615)) none) with
        dynamic_id := ascii "41" }).1 =
      callback_or_error.error ⟨-32601, "Method not found."⟩ ∧
    (find_callback 32 []
      { scratch_of 256 32 (request_of (some (element.uint64 18446744073709551615)) none) with
        dynamic_id := ascii "41" }).2.dynamic_id = ascii "0" ∧
    canonical_id (request_of (some (element.uint64 18446744073709551615)) none) =
      ascii "18446744073709551615" := by
  decide


/-! ## Lemmas on `point_to_param` -/

theorem write_two (buf front name : List Nat) (l n : Nat) (hl : front.length = l)
    (hn : l + name.length = n) (h : n ≤ buf.length) :
    write_at (write_at buf 0 front) l name = front ++ name ++ buf.drop n ∧
      (front ++ name ++ buf.drop n).take n = front ++ name := by
  subst hl
  subst hn
  have e : write_at (write_at buf 0 front) front.length name =
      front ++ name ++ buf.drop (front.length + name.length) := by
    rw [write_at_eq buf 0 front (by omega)]
    simp only [List.take_zero, List.nil_append, Nat.zero_add]
    rw [write_at_eq _ front.length name (by simp; omega)]
    rw [List.take_left' rfl, List.drop_append, List.drop_drop]
  refine ⟨e, ?_⟩
  rw [← List.length_append]
  exact List.take_left' rfl

theorem point_to_param_position_fits (at_pointer : element → List Nat → simdjson_result)
    (cap : Nat) (self : scratch_space_t) (position : Nat)
    (hbuf : cap ≤ self.json_pointer.length) (h8 : 8 ≤ cap)
    (h : (decimal position).length ≤ cap - 8) :
    point_to_param_position at_pointer cap self position =
      (at_pointer self.tree (ascii "/params/" ++ decimal position),
       { self with json_pointer := ascii "/params/" ++ decimal position ++
          self.json_pointer.drop (8 + (decimal position).length) }) := by
  have hp : (ascii "/params/").length = 8 := by decide
  have hw := write_two self.json_pointer (ascii "/params/") (decimal position) 8
    (8 + (decimal position).length) hp rfl (by omega)
  unfold point_to_param_position
  simp only [to_chars, h, if_true, hw.1, hw.2]

theorem point_to_param_position_too_long
    (at_pointer : element → List Nat → simdjson_result)
    (cap : Nat) (self : scratch_space_t) (position : Nat)
    (hbuf : 8 ≤ self.json_pointer.length)
    (h : ¬ (decimal position).length ≤ cap - 8) :
    point_to_param_position at_pointer cap self position =
      (simdjson_result.failure error_code.INVALID_JSON_POINTER,
       { self with json_pointer := ascii "/params/" ++ self.json_pointer.drop 8 }) := by
  have hp : (ascii "/params/").length = 8 := by decide
  unfold point_to_param_position
  simp only [to_chars, h, if_false]
  rw [write_at_eq _ 0 _ (by rw [hp]; omega), hp]
  simp


theorem composed_pointer_cases (name : List Nat) :
    (name = [] → composed_pointer name = ascii "/params/") ∧
    (name.head? = some 47 → composed_pointer name = ascii "/params/" ++ name) ∧
    (name ≠ [] → name.head? ≠ some 47 → composed_pointer name = ascii "/params" ++ name) := by
  refine ⟨?_, ?_, ?_⟩
  · intro h
    subst h
    decide
  · intro h
    have : needs_slash name = 0 := by simp [needs_slash, h]
    unfold composed_pointer
    rw [this]
    rfl
  · intro h1 h2
    have h0 : name.length ≠ 0 := fun h => h1 (List.eq_nil_of_length_eq_zero h)
    have : needs_slash name = 1 := by simp [needs_slash, h0, h2]
    unfold composed_pointer
    rw [this]
    rfl

/-- C16, evaluated on the code: for the name `"x"` and the parameters `{"x": 5}` the by-name
overload composes `"/paramsx"`, without the slash, and the lookup fails with
`NO_SUCH_FIELD`, whereas the pointer `"/params/x"` resolves to 5; for the name `"/x"`, which
has its slash, it composes `"/params//x"`.  The slash is dropped where it is lacking and
kept where it is present: the prefix length `8 - needs_slash` is the wrong way round. -/
theorem point_to_param_drops_slash :
    (composed_pointer (ascii "x")).length ≤ 256 ∧
    (point_to_param sj_at_pointer 256
      (scratch_of 256 32 (request_of none (some named_params))) (ascii "x")).1.error =
      error_code.NO_SUCH_FIELD ∧
    (point_to_param sj_at_pointer 256
      (scratch_of 256 32 (request_of none (some named_params))) (ascii "x")).1.as_int = none ∧
    (point_to_param sj_at_pointer 256
      (scratch_of 256 32 (request_of none (some named_params)))
      (ascii "x")).2.json_pointer.take 8 = ascii "/paramsx" ∧
    (sj_at_pointer (request_of none (some named_params)) (ascii "/params/x")).as_int =
      some 5 ∧
    (point_to_param sj_at_pointer 256
      (scratch_of 256 32 (request_of none (some named_params)))
      (ascii "/x")).2.json_pointer.take 10 = ascii "/params//x" ∧
    (point_to_param sj_at_pointer 256
      (scratch_of 256 32 (request_of none (some named_params))) (ascii "/x")).1.as_int =
      none := by
  decide

/-- C17: for every position whose decimal digits fit in the pointer buffer after the 8-byte
prefix, the by-position overload resolves exactly `"/params/"` followed by the decimal digits
of the position (8 bytes plus the digits, which read as the position and have no leading
zero); so for the parameters `[10, 20, 30]` the position 1 resolves to 20.  If the digits do
not fit, the result is `INVALID_JSON_POINTER` whatever the tree and its resolution are. -/
theorem point_to_param_position_pointer
    (at_pointer : element → List Nat → simdjson_result) (cap : Nat)
    (self : scratch_space_t) (position : Nat)
    (h8 : 8 ≤ cap) (hbuf : cap ≤ self.json_pointer.length) :
    ((decimal position).length ≤ cap - 8 →
      (point_to_param_position at_pointer cap self position).1 =
        at_pointer self.tree (ascii "/params/" ++ decimal position) ∧
      (ascii "/params/" ++ decimal position).length = 8 + (decimal position).length ∧
      (∀ c ∈ decimal position, is_digit c = true) ∧
      from_chars_digits (decimal position) 0 = position ∧
      (position ≠ 0 → (decimal position).head? ≠ some 48)) ∧
    (¬ (decimal position).length ≤ cap - 8 →
      ∀ (other : element → List Nat → simdjson_result) (tree : element),
        (point_to_param_position other cap { self with tree := tree } position).1 =
          simdjson_result.failure error_code.INVALID_JSON_POINTER) ∧
    (self.tree = request_of none (some positional_params) → 9 ≤ cap →
      (point_to_param_position sj_at_pointer cap self 1).1.as_int = some 20) := by
  have hp : (ascii "/params/").length = 8 := by decide
  refine ⟨?_, ?_, ?_⟩
  · intro hfit
    rw [point_to_param_position_fits at_pointer cap self position hbuf h8 hfit]
    refine ⟨rfl, by rw [List.length_append, hp], decimal_all_digits position,
      from_chars_digits_decimal_nil position, decimal_head position⟩
  · intro hfit other tree
    rw [point_to_param_position_too_long other cap { self with tree := tree } position
      (by show 8 ≤ self.json_pointer.length; omega) hfit]
  · intro htree h9
    have h1 : (decimal 1).length ≤ cap - 8 := by
      have : (decimal 1).length = 1 := by decide
      omega
    rw [point_to_param_position_fits sj_at_pointer cap self 1 hbuf h8 h1, htree]
    show (sj_at_pointer (request_of none (some positional_params))
      (ascii "/params/" ++ decimal 1)).as_int = some 20
    decide

/-- C17 with a buffer of 256 bytes and the parameters `[10, 20, 30]`. -/
theorem point_to_param_position_pointer_witness :
    (point_to_param_position sj_at_pointer 256
      (scratch_of 256 32 (request_of none (some positional_params))) 1).1.as_int = some 20 :=
  (point_to_param_position_pointer sj_at_pointer 256
    (scratch_of 256 32 (request_of none (some positional_params))) 1 (by decide)
    (by
      show 256 ≤ (List.replicate 256 0).length
      rw [List.length_replicate])).2.2 rfl (by decide)

theorem from_chars_no_digit (v : List Nat) (value : Nat)
    (h : ∀ c rest, v = c :: rest → is_digit c = false) : from_chars v value = value := by
  cases v with
  | nil => rfl
  | cons c rest => simp [from_chars, h c rest rfl]

theorem is_input_complete_expected (phr : List Nat → phr_request) (self : http_protocol_t)
    (input : span_gt) (p N : Nat)
    (hnone : self.content_length = none)
    (hres : 0 ≤ (phr input.bytes).res)
    (hm : (phr input.bytes).method ∈ supported_methods)
    (hcl : from_chars ((header_value (ascii "Content-Length") (phr input.bytes).headers).getD
      self.parsed.content_length) 0 = N)
    (hp : first_occurrence crlf_crlf input.bytes p)
    (hN : p + 4 + N < size_max) :
    is_input_complete phr self input =
      (decide (p + 4 + N ≤ input.bytes.length),
       { (parse_headers phr self input).2 with content_length := some (p + 4 + N) }) := by
  obtain ⟨h1, _, _, h4, h5⟩ := parse_headers_found phr self input p hres hm hp
  unfold is_input_complete
  rw [hnone]
  rcases hph : parse_headers phr self input with ⟨err, self1⟩
  rw [hph] at h1 h4 h5
  simp only at h1 h4 h5
  subst h1
  simp only
  rw [h5, hcl, h4]
  have e := wrap_offset N input.data (p + 4) (by omega)
  simp only at e ⊢
  rw [e]
  have e2 : N + (p + 4) = p + 4 + N := by omega
  rw [e2]

/-- C19, as stated, fails: the 22-byte request `OPTIONS / HTTP/1.1` tokenizes successfully,
its body starts at offset 22 and it has no Content-Length header, the state holding no stale
value; yet `is_input_complete` answers false and caches nothing, because `parse_headers`
refuses the method with `-405`. -/
theorem is_input_complete_rejects_options :
    fresh.content_length = none ∧ fresh.parsed.content_length = [] ∧
    0 ≤ (phr_table [(options_request, options_tokens)] options_request).res ∧
    first_occurrence crlf_crlf options_request 18 ∧
    header_value (ascii "Content-Length")
      (phr_table [(options_request, options_tokens)] options_request).headers = none ∧
    (is_input_complete (phr_table [(options_request, options_tokens)]) fresh
      ⟨4096, options_request⟩).1 = false ∧
    (is_input_complete (phr_table [(options_request, options_tokens)]) fresh
      ⟨4096, options_request⟩).2.content_length = none := by
  decide

/-- C19, amended: let the content length be not yet known, the headers tokenize
successfully and the first `"\r\n\r\n"` start at offset `p` (body start `H = p + 4`) in a
buffer that fits the address space.  If the method token is one of GET, PUT, POST, DELETE and
the Content-Length value is absent (with no stale value in the state) or does not begin with
a decimal digit, `is_input_complete` takes the declared length as 0, caches
`content_length = H` and returns true.  With any other method token the call returns false
and caches nothing. -/
theorem is_input_complete_zero_expectation (phr : List Nat → phr_request)
    (self : http_protocol_t) (input : span_gt) (p : Nat)
    (hnone : self.content_length = none)
    (hres : 0 ≤ (phr input.bytes).res)
    (hp : first_occurrence crlf_crlf input.bytes p)
    (hsize : input.bytes.length < size_max) :
    ((phr input.bytes).method ∈ supported_methods →
      ((header_value (ascii "Content-Length") (phr input.bytes).headers = none ∧
          self.parsed.content_length = []) ∨
        (∃ v, header_value (ascii "Content-Length") (phr input.bytes).headers = some v ∧
          ∀ c rest, v = c :: rest → is_digit c = false)) →
      (is_input_complete phr self input).2.content_length = some (p + 4) ∧
        (is_input_complete phr self input).1 = true) ∧
    ((phr input.bytes).method ∉ supported_methods →
      (is_input_complete phr self input).1 = false ∧
        (is_input_complete phr self input).2.content_length = none) := by
  constructor
  · intro hm hcl
    have hb := first_occurrence_bound crlf_crlf input.bytes p hp
    have h4 : crlf_crlf.length = 4 := rfl
    rw [h4] at hb
    have hzero : from_chars ((header_value (ascii "Content-Length")
        (phr input.bytes).headers).getD self.parsed.content_length) 0 = 0 := by
      rcases hcl with ⟨ha, hs⟩ | ⟨v, hv, hd⟩
      · rw [ha, hs]
        rfl
      · rw [hv]
        exact from_chars_no_digit v 0 hd
    rw [is_input_complete_expected phr self input p 0 hnone hres hm hzero hp (by omega)]
    simp
    omega
  · intro hm
    exact (is_input_complete_unsupported phr self input hnone hres hm).2

/-- C19, amended, on the GET request of 18 bytes without headers and on the OPTIONS
request. -/
theorem is_input_complete_zero_expectation_witness :
    ((is_input_complete demo_phr fresh ⟨4096, get_request⟩).2.content_length =
        some (14 + 4) ∧
      (is_input_complete demo_phr fresh ⟨4096, get_request⟩).1 = true) ∧
    ((is_input_complete (phr_table [(options_request, options_tokens)]) fresh
        ⟨4096, options_request⟩).1 = false ∧
      (is_input_complete (phr_table [(options_request, options_tokens)]) fresh
        ⟨4096, options_request⟩).2.content_length = none) :=
  ⟨(is_input_complete_zero_expectation demo_phr fresh ⟨4096, get_request⟩ 14 (by decide)
      (by decide) (by decide) (by decide)).1 (by decide) (Or.inl (by decide)),
    (is_input_complete_zero_expectation (phr_table [(options_request, options_tokens)]) fresh
      ⟨4096, options_request⟩ 18 (by decide) (by decide) (by decide) (by decide)).2
      (by decide)⟩

end ucall
